import Mathlib

/-!
# go-grpc-tunnel: a shallow embedding of the tunnel engine

The two processes of the repository (`cmd/server/main.go`, `cmd/client/main.go`) and the
frame helpers (`proto/helpers.go`) are embedded as pure functions.

Conventions of the embedding

* Sockets, channels, cancel functions and streams are handles (natural numbers); a Go
  value that may be `nil` is an `Option`.
* A function that mutates `*tunnelServer` / `*tunnelAgent` takes the struct and returns the
  new struct together with the list of effects it performed, in program order.
* The outcome of every I/O call (`Send`, `Write`, `Read`, `Recv`, `time.Now`, which case of
  a `select` fires) is an explicit argument: the functions are total in their environment.
* `go f(...)` is recorded as an `Effect.spawn`; the spawned call runs later, as a call of
  its own.
* A Go `map[string]*T` is an association list with first-match lookup; `delete` removes
  every entry of the key and an assignment replaces the entry, so keys stay unique. A
  `range` over the map visits the entries in list order (Go leaves the order open).
-/

namespace GrpcTunnel

/-! ## Handles and Go values -/

/-- A byte string (`[]byte`). -/
abbrev Bytes := List (Fin 256)

/-- A TCP connection (`net.Conn`). -/
abbrev Conn := Nat

/-- A `context.CancelFunc`; the context it cancels is identified with it. -/
abbrev CancelFunc := Nat

/-- A channel (`chan struct{}`). -/
abbrev Chan := Nat

/-- A Go `error`: `none` is `nil`, `some text` an error with that text. -/
abbrev GoError := Option String

/-! ## Go maps as association lists -/

/-- Go `v, exists := m[k]`. -/
def lookup {α : Type} : List (String × α) → String → Option α
  | [], _ => none
  | (k', v) :: rest, k => if k' = k then some v else lookup rest k

/-- Go `delete(m, k)`. -/
def delete {α : Type} (m : List (String × α)) (k : String) : List (String × α) :=
  m.filter (fun p => decide (p.1 ≠ k))

/-- Go `m[k] = v`. -/
def store {α : Type} (m : List (String × α)) (k : String) (v : α) : List (String × α) :=
  (k, v) :: delete m k

/-- A write through the pointer held in the map under `k` (`m[k].field = ...`): the first
entry of the key is replaced by `v`, nothing is added when the key is absent. -/
def assign {α : Type} : List (String × α) → String → α → List (String × α)
  | [], _, _ => []
  | (k', v') :: rest, k, v =>
    if k' = k then (k', v) :: rest else (k', v') :: assign rest k v

/-! ## proto: frames -/

/-- Modelled from the spec: the generated `FrameType` enum of the protobuf package is not
among the sources; the five frame types of the data model, plus any other wire value. -/
inductive FrameType
  | START_DATA_TUNNEL
  | TUNNEL_READY
  | DATA
  | CLOSE_TUNNEL
  | ERROR
  | unrecognized (code : Nat)
  deriving DecidableEq, Repr

/-- Modelled from the spec: the generated `Frame` message is not among the sources; its
fields are those used by `proto/helpers.go` and the two `main.go`. `Typ` is the Go field
`Type`; pointer fields (`*string`, `*int64`) and the map are optional. -/
structure Frame where
  Typ : FrameType
  ConnectionId : String
  Payload : Bytes := []
  Metadata : Option (List (String × String)) := none
  ErrorMessage : Option String := none
  CloseReason : Option String := none
  Timestamp : Option Int := none
  deriving DecidableEq, Repr

/-- Go `f.Metadata[k]`: indexing a nil map or a missing key gives the empty string. -/
def Frame.metadataAt (f : Frame) (k : String) : String :=
  match f.Metadata with
  | none => ""
  | some m => (lookup m k).getD ""

/-- `SetErrorMessage`. -/
def Frame.SetErrorMessage (f : Frame) (msg : String) : Frame :=
  { f with ErrorMessage := some msg, Metadata := some (store (f.Metadata.getD []) "error" msg) }

/-- `GetOptimizedErrorMessage`. -/
def Frame.GetOptimizedErrorMessage (f : Frame) : String :=
  match f.ErrorMessage with
  | some m => m
  | none =>
    match f.Metadata with
    | some m => (lookup m "error").getD ""
    | none => ""

/-- `SetCloseReason`. -/
def Frame.SetCloseReason (f : Frame) (reason : String) : Frame :=
  { f with CloseReason := some reason,
           Metadata := some (store (f.Metadata.getD []) "reason" reason) }

/-- `GetOptimizedCloseReason`. -/
def Frame.GetOptimizedCloseReason (f : Frame) : String :=
  match f.CloseReason with
  | some r => r
  | none =>
    match f.Metadata with
    | some m => (lookup m "reason").getD ""
    | none => ""

/-- `SetTimestamp`; `now` is the value of `time.Now().Unix()`. -/
def Frame.SetTimestamp (f : Frame) (now : Int) : Frame :=
  { f with Timestamp := some now }

/-- `NewDataFrame`. -/
def NewDataFrame (connectionID : String) (payload : Bytes) (now : Int) : Frame :=
  Frame.SetTimestamp { Typ := .DATA, ConnectionId := connectionID, Payload := payload } now

/-- `NewErrorFrame`. -/
def NewErrorFrame (connectionID errorMsg : String) (now : Int) : Frame :=
  Frame.SetTimestamp
    (Frame.SetErrorMessage { Typ := .ERROR, ConnectionId := connectionID } errorMsg) now

/-- `NewCloseFrame`. -/
def NewCloseFrame (connectionID reason : String) (now : Int) : Frame :=
  Frame.SetTimestamp
    (Frame.SetCloseReason { Typ := .CLOSE_TUNNEL, ConnectionId := connectionID } reason) now

/-- `NewTunnelReadyFrame`. -/
def NewTunnelReadyFrame (connectionID : String) (now : Int) : Frame :=
  Frame.SetTimestamp { Typ := .TUNNEL_READY, ConnectionId := connectionID } now

/-- `NewStartTunnelFrame`. -/
def NewStartTunnelFrame (connectionID : String) (now : Int) : Frame :=
  Frame.SetTimestamp { Typ := .START_DATA_TUNNEL, ConnectionId := connectionID } now

/-! ## Effects -/

/-- A call started with `go`. -/
inductive Goroutine
  | closeTunnel (connID reason : String)
  | startLocalFirebirdTunnel (connID : String)
  deriving DecidableEq, Repr

/-- What a function does to the world outside the struct it mutates, one constructor per
kind of call. `streamSend` and `connWrite` record the call, whatever its outcome. -/
inductive Effect
  | cancel (c : CancelFunc)
  | connClose (c : Conn)
  | connWrite (c : Conn) (p : Bytes)
  | streamSend (stream : Nat) (f : Frame)
  | chanClose (ch : Chan)
  | spawn (g : Goroutine)
  deriving DecidableEq, Repr

/-- The effect is a write to some socket. -/
def Effect.isWrite : Effect → Bool
  | .connWrite _ _ => true
  | _ => false

/-- The effect is a send on some control stream. -/
def Effect.isSend : Effect → Bool
  | .streamSend _ _ => true
  | _ => false

/-- The effect is the send of a `CLOSE_TUNNEL` frame. -/
def Effect.isCloseSend : Effect → Bool
  | .streamSend _ f => decide (f.Typ = FrameType.CLOSE_TUNNEL)
  | _ => false

/-- The frames sent on control stream `st`, in order. -/
def sentOn (st : Nat) : List Effect → List Frame
  | [] => []
  | .streamSend st' f :: rest => if st' = st then f :: sentOn st rest else sentOn st rest
  | _ :: rest => sentOn st rest

/-- The bytes written to socket `c`, in order. -/
def writtenTo (c : Conn) : List Effect → Bytes
  | [] => []
  | .connWrite c' p :: rest => if c' = c then p ++ writtenTo c rest else writtenTo c rest
  | _ :: rest => writtenTo c rest

/-- The call `cancel()` guarded by `if cancel != nil`. -/
def cancelEffect : Option CancelFunc → List Effect
  | some c => [.cancel c]
  | none => []

/-- The call `conn.Close()` guarded by `if conn != nil`. -/
def connCloseEffect : Option Conn → List Effect
  | some c => [.connClose c]
  | none => []

/-! ## cmd/server -/

/-- gRPC status codes used by the server. -/
inductive Code
  | OK
  | Canceled
  | Unknown
  | AlreadyExists
  | Internal
  | Unavailable
  | Unauthenticated
  deriving DecidableEq, Repr

/-- A gRPC status error (`status.Error(code, msg)`). -/
structure Status where
  code : Code
  msg : String
  deriving DecidableEq, Repr

/-- `tunnelInfo`. The fields `ctx` and `cancel` come from one `context.WithCancel`; the
handle in `cancel` stands for both. -/
structure tunnelInfo where
  firebirdConn : Option Conn
  cancel : Option CancelFunc
  ready : Option Chan
  deriving DecidableEq, Repr

/-- Incoming gRPC metadata: key to list of values. -/
abbrev MD := List (String × List String)

/-- `md.Get(k)`. -/
def MD.Get (md : MD) (k : String) : List String := (lookup md k).getD []

/-- The agent's control stream as the server sees it
(`pb.TunnelService_ConnectControlServer`): its identity and the incoming metadata of its
context (`none` when `metadata.FromIncomingContext` reports no metadata). -/
structure ServerStream where
  id : Nat
  incomingMD : Option MD
  deriving DecidableEq, Repr

/-- `tunnelServer` (the mutex is implicit: every function below is one critical section or
a sequence of them). -/
structure tunnelServer where
  agentStream : Option ServerStream
  activeTunnels : List (String × tunnelInfo)
  authToken : String
  deriving DecidableEq, Repr

/-- `newTunnelServer`. -/
def newTunnelServer (token : String) : tunnelServer :=
  { agentStream := none, activeTunnels := [], authToken := token }

/-- The constant `expectedPrefix` of `authenticate`. -/
def expectedPrefix : String := "Bearer "

/-- The test `len(token) > len(expectedPrefix) && token[:len(expectedPrefix)] ==
expectedPrefix` of `authenticate`. Lengths and slices are taken on the character list;
for the ASCII prefix this agrees with Go's byte slices. -/
def hasBearerPrefix (value : String) : Bool :=
  decide (value.data.length > expectedPrefix.data.length) &&
    decide (value.data.take expectedPrefix.data.length = expectedPrefix.data)

/-- The token compared by `authenticate`: `values[0]` with one leading `"Bearer "` removed
when the value is strictly longer than that prefix. -/
def bearerToken (value : String) : String :=
  if hasBearerPrefix value then String.mk (value.data.drop expectedPrefix.data.length)
  else value

/-- `authenticate`; `ctxMD` is the result of `metadata.FromIncomingContext(ctx)`. -/
def authenticate (s : tunnelServer) (ctxMD : Option MD) : Except Status Unit :=
  match ctxMD with
  | none => .error { code := .Unauthenticated, msg := "metadata is not provided" }
  | some md =>
    match MD.Get md "authorization" with
    | [] => .error { code := .Unauthenticated, msg := "authorization token is not provided" }
    | value :: _ =>
      if bearerToken value ≠ s.authToken then
        .error { code := .Unauthenticated, msg := "invalid token" }
      else .ok ()

/-- `sendFrameToAgent`; `sendErr` is what `s.agentStream.Send(frame)` returns. The struct
is not modified; the result is the effects and the returned error. -/
def sendFrameToAgent (s : tunnelServer) (frame : Frame) (sendErr : GoError) :
    List Effect × GoError :=
  match s.agentStream with
  | none => ([], some "agent stream is not available")
  | some stream =>
    match sendErr with
    | none => ([.streamSend stream.id frame], none)
    | some e =>
      if frame.ConnectionId ≠ "" then
        ([.streamSend stream.id frame,
          .spawn (.closeTunnel frame.ConnectionId "Failed to send to agent")], some e)
      else ([.streamSend stream.id frame], some e)

/-- `closeTunnel`; `sendErr` is the outcome of the `Send` made by the notification, when
one is made. -/
def closeTunnel (s : tunnelServer) (connID reason : String) (sendErr : GoError) :
    tunnelServer × List Effect :=
  match lookup s.activeTunnels connID with
  | none => (s, [])
  | some tunnel =>
    let s1 := { s with activeTunnels := delete s.activeTunnels connID }
    let notified : List Effect :=
      if reason ≠ "Closed by agent" ∧ reason ≠ "Failed to send to agent" then
        (sendFrameToAgent s1
          { Typ := .CLOSE_TUNNEL, ConnectionId := connID,
            Metadata := some [("reason", reason)] } sendErr).1
      else []
    (s1, cancelEffect tunnel.cancel ++ connCloseEffect tunnel.firebirdConn ++ notified)

/-- Outcomes of the I/O calls made while the server handles one frame. -/
structure FrameIO where
  writeErr : GoError
  sendErr : GoError
  deriving DecidableEq, Repr

/-- `handleAgentFrame`. -/
def handleAgentFrame (s : tunnelServer) (frame : Frame) (io : FrameIO) :
    tunnelServer × List Effect :=
  let found := lookup s.activeTunnels frame.ConnectionId
  if found.isNone ∧ frame.Typ ≠ .TUNNEL_READY then (s, [])
  else
    match frame.Typ with
    | .TUNNEL_READY =>
      match lookup s.activeTunnels frame.ConnectionId with
      | some tunnel =>
        match tunnel.ready with
        | some ch =>
          ({ s with activeTunnels :=
                assign s.activeTunnels frame.ConnectionId { tunnel with ready := none } },
            [.chanClose ch])
        | none => (s, [])
      | none => (s, [])
    | .DATA =>
      match found with
      | none => (s, [])
      | some tunnel =>
        match tunnel.firebirdConn with
        | none => (s, [])
        | some c =>
          match io.writeErr with
          | none => (s, [.connWrite c frame.Payload])
          | some _ =>
            let r := closeTunnel s frame.ConnectionId "Error writing to remote client" io.sendErr
            (r.1, .connWrite c frame.Payload :: r.2)
    | .CLOSE_TUNNEL => closeTunnel s frame.ConnectionId "Closed by agent" io.sendErr
    | .ERROR => closeTunnel s frame.ConnectionId "Error reported by agent" io.sendErr
    | _ => (s, [])

/-- The deferred cleanup of `ConnectControl`, loop body over the entries of the registry:
`pending` are the entries still to be visited, `m` the registry as deleted from so far.
The call `tunnel.cancel()` is not guarded in the source: on a nil `cancel` it panics,
which is `none` here. -/
def agentDisconnectLoop :
    List (String × tunnelInfo) → List (String × tunnelInfo) →
      Option (List (String × tunnelInfo) × List Effect)
  | [], m => some (m, [])
  | (connID, tunnel) :: pending, m =>
    match tunnel.cancel with
    | none => none
    | some c =>
      match agentDisconnectLoop pending (delete m connID) with
      | none => none
      | some (m', effects) =>
        some (m', Effect.cancel c :: connCloseEffect tunnel.firebirdConn ++ effects)

/-- The deferred cleanup of `ConnectControl` (the `defer func()` run on every exit once the
session is installed); `none` is a panic. -/
def agentDisconnectCleanup (s : tunnelServer) : Option (tunnelServer × List Effect) :=
  match agentDisconnectLoop s.activeTunnels s.activeTunnels with
  | none => none
  | some (m, effects) => some ({ s with agentStream := none, activeTunnels := m }, effects)

/-- How the receive loop of `ConnectControl` ends: `stream.Recv()` returns `io.EOF`, or an
error whose `status.Code` is `code` and whose text is `text`. -/
inductive RecvEnd
  | eof
  | failed (code : Code) (text : String)
  deriving DecidableEq, Repr

/-- The frames received before the loop ends, handled in order. -/
def recvLoop : tunnelServer → List (Frame × FrameIO) → tunnelServer × List Effect
  | s, [] => (s, [])
  | s, (frame, io) :: rest =>
    let r := handleAgentFrame s frame io
    let r' := recvLoop r.1 rest
    (r'.1, r.2 ++ r'.2)

/-- The value returned by `ConnectControl` when its receive loop ends. -/
def recvEndStatus : RecvEnd → Option Status
  | .eof => none
  | .failed code text =>
    if code = .Canceled ∨ code = .Unavailable then none
    else some { code := .Internal, msg := "failed to receive from agent: " ++ text }

/-- `ConnectControl` on `stream`, which delivers `frames` and then ends with `final`. The
result is the new struct, the effects and the returned error (`none` is `nil`); an outer
`none` is a panic. -/
def ConnectControl (s : tunnelServer) (stream : ServerStream)
    (frames : List (Frame × FrameIO)) (final : RecvEnd) :
    Option (tunnelServer × List Effect × Option Status) :=
  match authenticate s stream.incomingMD with
  | .error err => some (s, [], some err)
  | .ok _ =>
    match s.agentStream with
    | some _ => some (s, [], some { code := .AlreadyExists, msg := "agent already connected" })
    | none =>
      let s1 := { s with agentStream := some stream }
      let r := recvLoop s1 frames
      match agentDisconnectCleanup r.1 with
      | none => none
      | some (s2, effects) => some (s2, r.2 ++ effects, recvEndStatus final)

/-- The cases of the `select` that waits for `TUNNEL_READY`, in source order. -/
inductive WaitCase
  | ready
  | timeout
  | tunnelCtxDone
  | agentCtxDone
  deriving DecidableEq, Repr

/-- What happens while the handler is blocked in the ready wait, before the 15 s timer:
whether the channel created by the handler gets closed, whether the tunnel context and
the agent stream context get cancelled, and which case the `select` prefers when several
are ready. -/
structure WaitObs where
  readyClosed : Bool
  tunnelCtxDone : Bool
  agentCtxDone : Bool
  prefer : WaitCase
  deriving DecidableEq, Repr

/-- The ready wait of `handleFirebirdConnection`. `readyField` is the value of
`tunnel.ready` and `agentStream` the value of `s.agentStream` when the `select` evaluates
its channel operands. `s.agentStream.Context()` on a nil stream panics (`none`). A nil
channel never delivers; the timer fires when no other case does. -/
def awaitReady (readyField : Option Chan) (agentStream : Option ServerStream)
    (obs : WaitObs) : Option WaitCase :=
  match agentStream with
  | none => none
  | some _ =>
    let enabled : List WaitCase :=
      (if readyField.isSome ∧ obs.readyClosed then [WaitCase.ready] else []) ++
      (if obs.tunnelCtxDone then [WaitCase.tunnelCtxDone] else []) ++
      (if obs.agentCtxDone then [WaitCase.agentCtxDone] else [])
    match enabled with
    | [] => some .timeout
    | first :: _ => if obs.prefer ∈ enabled then some obs.prefer else some first

/-- The result of `fbConn.Read(buffer)`: `data` is `buffer[:n]`. -/
structure ReadResult where
  data : Bytes
  err : GoError
  deriving DecidableEq, Repr

/-- One iteration of the client-to-agent pump as the environment drives it: whether
`tunnelCtx.Done()` is ready, what `Read` returns, what the `Send` of the DATA frame
returns, and what the `Send` made by a `closeTunnel` of this iteration returns. -/
structure PumpObs where
  ctxDone : Bool
  read : ReadResult
  sendErr : GoError
  closeSendErr : GoError
  deriving DecidableEq, Repr

/-- The size of the read buffer of both pumps, `32*1024`. -/
def readBufferSize : Nat := 32 * 1024

/-- One iteration of the pump goroutine of `handleFirebirdConnection`. The third component
tells whether the goroutine goes on to the next iteration. -/
def pumpStep (s : tunnelServer) (connID : String) (o : PumpObs) :
    tunnelServer × List Effect × Bool :=
  if o.ctxDone then (s, [], false)
  else
    match o.read.err with
    | some _ =>
      let r := closeTunnel s connID "Read error/EOF from Firebird client" o.closeSendErr
      (r.1, r.2, false)
    | none =>
      if o.read.data.length > 0 then
        let sent := sendFrameToAgent s
          { Typ := .DATA, ConnectionId := connID, Payload := o.read.data } o.sendErr
        match sent.2 with
        | some _ =>
          let r := closeTunnel s connID "Failed to send data to agent" o.closeSendErr
          (r.1, sent.1 ++ r.2, false)
        | none => (s, sent.1, true)
      else (s, [], true)

/-- The pump goroutine of `handleFirebirdConnection` over the iterations `obs`. The third
component tells whether the goroutine has returned (`false`: it is about to start the
next iteration). -/
def pumpLoop (connID : String) : tunnelServer → List PumpObs → tunnelServer × List Effect × Bool
  | s, [] => (s, [], false)
  | s, o :: rest =>
    let r := pumpStep s connID o
    if r.2.2 then
      let r' := pumpLoop connID r.1 rest
      (r'.1, r.2.1 ++ r'.2.1, r'.2.2)
    else (r.1, r.2.1, true)

/-- The environment of one run of `handleFirebirdConnection`. -/
structure HandlerEnv where
  startSendErr : GoError
  wait : WaitObs
  pump : List PumpObs
  exitSendErr : GoError
  deriving DecidableEq, Repr

/-- `handleFirebirdConnection` for the accepted socket `fbConn`, run without interleaving;
`connID` is the fresh UUID, `cancel` the fresh tunnel context and `ready` the fresh
channel. The third component tells whether the handler has returned; `none` is a panic. -/
def handleFirebirdConnection (s : tunnelServer) (fbConn : Conn) (connID : String)
    (cancel : CancelFunc) (ready : Chan) (env : HandlerEnv) :
    Option (tunnelServer × List Effect × Bool) :=
  let tunnel : tunnelInfo :=
    { firebirdConn := some fbConn, cancel := some cancel, ready := some ready }
  match s.agentStream with
  | none => some (s, [.connClose fbConn], true)
  | some _ =>
    let s1 := { s with activeTunnels := store s.activeTunnels connID tunnel }
    let started := sendFrameToAgent s1
      { Typ := .START_DATA_TUNNEL, ConnectionId := connID } env.startSendErr
    match started.2 with
    | some _ =>
      let d := closeTunnel s1 connID "Handler exit" env.exitSendErr
      some (d.1, started.1 ++ d.2, true)
    | none =>
      match awaitReady ((lookup s1.activeTunnels connID).bind (fun t => t.ready))
          s1.agentStream env.wait with
      | none => none
      | some .ready =>
        let p := pumpLoop connID s1 env.pump
        if p.2.2 then
          let d := closeTunnel p.1 connID "Handler exit" env.exitSendErr
          some (d.1, started.1 ++ p.2.1 ++ d.2, true)
        else some (p.1, started.1 ++ p.2.1, false)
      | some _ =>
        let d := closeTunnel s1 connID "Handler exit" env.exitSendErr
        some (d.1, started.1 ++ d.2, true)

/-! ## cmd/client (the agent) -/

/-- `localTunnelInfo`; as on the server, `cancel` stands for `ctx` as well. -/
structure localTunnelInfo where
  fbConn : Option Conn
  cancel : Option CancelFunc
  deriving DecidableEq, Repr

/-- `tunnelAgent`: the fields the tunnel engine reads and writes (`controlStream` and
`conn` are handles, `none` when nil). -/
structure tunnelAgent where
  authToken : String
  conn : Option Nat
  controlStream : Option Nat
  activeConns : List (String × localTunnelInfo)
  deriving DecidableEq, Repr

/-- `sendFrameToServer`; `sendErr` is what `stream.Send(frame)` returns. -/
def sendFrameToServer (a : tunnelAgent) (frame : Frame) (sendErr : GoError) :
    List Effect × GoError :=
  match a.controlStream with
  | none => ([], some "control stream is not available")
  | some stream => ([.streamSend stream frame], sendErr)

/-- `closeLocalTunnel`; `now` is the clock read by `NewCloseFrame`. -/
def closeLocalTunnel (a : tunnelAgent) (connID reason : String) (sendErr : GoError)
    (now : Int) : tunnelAgent × List Effect :=
  match lookup a.activeConns connID with
  | none => (a, [])
  | some tunnelInfo =>
    let a1 := { a with activeConns := delete a.activeConns connID }
    let notified : List Effect :=
      if reason ≠ "Closed by server" then
        (sendFrameToServer a1 (NewCloseFrame connID reason now) sendErr).1
      else []
    (a1, cancelEffect tunnelInfo.cancel ++ connCloseEffect tunnelInfo.fbConn ++ notified)

/-- Outcomes of the I/O calls made while the agent handles one frame. -/
structure ServerFrameIO where
  writeErr : GoError
  sendErr : GoError
  now : Int
  deriving DecidableEq, Repr

/-- `handleServerFrame`. -/
def handleServerFrame (a : tunnelAgent) (frame : Frame) (io : ServerFrameIO) :
    tunnelAgent × List Effect :=
  match frame.Typ with
  | .START_DATA_TUNNEL => (a, [.spawn (.startLocalFirebirdTunnel frame.ConnectionId)])
  | .DATA =>
    match (lookup a.activeConns frame.ConnectionId).bind (fun t => t.fbConn) with
    | some c =>
      match io.writeErr with
      | none => (a, [.connWrite c frame.Payload])
      | some e =>
        let r := closeLocalTunnel a frame.ConnectionId
          ("Write error to local FB: " ++ e) io.sendErr io.now
        (r.1, .connWrite c frame.Payload :: r.2)
    | none =>
      (a, (sendFrameToServer a
        (NewCloseFrame frame.ConnectionId "Tunnel not found or already closed" io.now)
        io.sendErr).1)
  | .CLOSE_TUNNEL => closeLocalTunnel a frame.ConnectionId "Closed by server" io.sendErr io.now
  | _ => (a, [])

/-- The receive loop of `connectAndServe` over the frames the stream delivers, each with
the outcomes of the I/O calls made while it is handled. -/
def handleServerFrames : tunnelAgent → List (Frame × ServerFrameIO) → tunnelAgent × List Effect
  | a, [] => (a, [])
  | a, (frame, io) :: rest =>
    let r := handleServerFrame a frame io
    let r' := handleServerFrames r.1 rest
    (r'.1, r.2 ++ r'.2)

/-- A `time.Duration`: a signed 64-bit count of nanoseconds. -/
abbrev Duration := Int

/-- `time.Second`. -/
def Second : Duration := 1000000000

/-- Two's-complement wrap of an integer to 64 bits (Go `int64` arithmetic). -/
def wrapInt64 (x : Int) : Int := (x + 2 ^ 63) % 2 ^ 64 - 2 ^ 63

/-- The constant `maxReconnectDelay` of `runControlLoop`. -/
def maxReconnectDelay : Duration := wrapInt64 (30 * Second)

/-- One iteration of `runControlLoop` as the environment drives it: whether the root
context is already cancelled at the top of the loop, what `connectAndServe` returns, and
whether the root context is cancelled when it returns. -/
structure Attempt where
  cancelledBefore : Bool
  err : GoError
  cancelledAfter : Bool
  deriving DecidableEq, Repr

/-- The loop of `runControlLoop` from the current value of `reconnectDelay`; the result is
the arguments of the `time.Sleep` calls, in order. -/
def runControlLoopFrom : Duration → List Attempt → List Duration
  | _, [] => []
  | reconnectDelay, attempt :: rest =>
    if attempt.cancelledBefore then []
    else if attempt.cancelledAfter then []
    else
      match attempt.err with
      | some _ =>
        let doubled := wrapInt64 (reconnectDelay * 2)
        reconnectDelay ::
          runControlLoopFrom (if doubled > maxReconnectDelay then maxReconnectDelay else doubled)
            rest
      | none => wrapInt64 (1 * Second) :: runControlLoopFrom (wrapInt64 (1 * Second)) rest

/-- `runControlLoop`. -/
def runControlLoop (attempts : List Attempt) : List Duration :=
  runControlLoopFrom (wrapInt64 (1 * Second)) attempts

/-! ## The backoff schedule in the words of the specification -/

/-- The number of consecutive failures immediately preceding attempt `i`, counted back to
the start or to the last clean close; `failed` lists, per attempt, whether it failed. -/
def consecutiveFailuresBefore (failed : List Bool) (i : Nat) : Nat :=
  (((failed.take i).reverse).takeWhile (fun b => b)).length

/-- The sleep the specification prescribes after attempt `i`: `min(2^j, 30)` seconds after
a failure preceded by `j` consecutive failures, one second after a clean close. -/
def specifiedSleep (failed : List Bool) (i : Nat) : Duration :=
  if failed.getD i false then
    ((min (2 ^ consecutiveFailuresBefore failed i) 30 : Nat) : Int) * Second
  else 1 * Second

/-- Whether `connectAndServe` failed in this attempt. -/
def Attempt.failed (attempt : Attempt) : Bool := attempt.err.isSome

/-! ## Observations on the ready channels -/

/-- The channels held in the `ready` field of the registered records. -/
def readyChans (s : tunnelServer) : List Chan :=
  s.activeTunnels.filterMap (fun p => p.2.ready)

/-- The channels closed by a list of effects, in order. -/
def closedChans : List Effect → List Chan
  | [] => []
  | .chanClose ch :: rest => ch :: closedChans rest
  | _ :: rest => closedChans rest

/-- The id is unregistered, or its record no longer waits for readiness. -/
def notWaiting (s : tunnelServer) (id : String) : Prop :=
  ∀ tunnel, lookup s.activeTunnels id = some tunnel → tunnel.ready = none

/-! ## The DATA frames of a byte stream -/

/-- One DATA frame per non-empty chunk, in order, as the server pump builds them. -/
def dataFrames (connID : String) (chunks : List Bytes) : List Frame :=
  (chunks.filter (fun c => decide (c ≠ []))).map
    (fun c => { Typ := .DATA, ConnectionId := connID, Payload := c })

/-- The effects of the cleanup loop over the entries `m`: per entry, the cancel and the
socket close. -/
def teardownEffects : List (String × tunnelInfo) → List Effect
  | [] => []
  | (_, tunnel) :: rest =>
    cancelEffect tunnel.cancel ++ connCloseEffect tunnel.firebirdConn ++ teardownEffects rest

/-- The value of `reconnectDelay` after `j` consecutive failures. -/
def delayAfter (j : Nat) : Duration := ((min (2 ^ j) 30 : Nat) : Int) * Second

/-- Every registered record carries a cancel function, as the records built by
`handleFirebirdConnection` do. -/
def recordsHaveCancel (s : tunnelServer) : Prop :=
  ∀ p ∈ s.activeTunnels, p.2.cancel ≠ none

/-! ## cmd/client: cleanup on disconnect -/

/-- The loop of `cleanupAgentState` over the snapshot `connIDs` of the registered ids;
`sendErr id` and `now id` are the outcome of the `Send` and the clock read made while
`id` is closed. -/
def cleanupLoop (sendErr : String → GoError) (now : String → Int) :
    tunnelAgent → List String → tunnelAgent × List Effect
  | a, [] => (a, [])
  | a, connID :: rest =>
    let r := closeLocalTunnel a connID "Agent disconnecting or connection lost"
      (sendErr connID) (now connID)
    let r' := cleanupLoop sendErr now r.1 rest
    (r'.1, r.2 ++ r'.2)

/-- `cleanupAgentState`. `a.wg.Wait()` only blocks until the pump goroutines have
returned; they are calls of their own. -/
def cleanupAgentState (a : tunnelAgent) (sendErr : String → GoError) (now : String → Int) :
    tunnelAgent × List Effect :=
  let connIDs := a.activeConns.map Prod.fst
  let r := cleanupLoop sendErr now a connIDs
  ({ r.1 with controlStream := none, conn := none }, r.2)

/-! ## cmd/server: critical sections and interleavings -/

/-- The critical section of `ConnectControl` that installs the session (`s.mu.Lock()` to
`s.mu.Unlock()` around `s.agentStream = stream`); `none` when another agent is connected
and the call is rejected. -/
def installSession (s : tunnelServer) (stream : ServerStream) : Option tunnelServer :=
  match s.agentStream with
  | some _ => none
  | none => some { s with agentStream := some stream }

/-- The critical section of `handleFirebirdConnection` that registers the tunnel
(`s.mu.Lock()` to `s.mu.Unlock()` around `s.activeTunnels[connID] = tunnel`); `none` when
no agent is connected and the socket is closed instead. -/
def registerTunnel (s : tunnelServer) (fbConn : Conn) (connID : String) (cancel : CancelFunc)
    (ready : Chan) : Option tunnelServer :=
  match s.agentStream with
  | none => none
  | some _ =>
    some { s with
      activeTunnels :=
        store s.activeTunnels connID
          { firebirdConn := some fbConn, cancel := some cancel, ready := some ready } }

/-- The server states reachable from `newTunnelServer`, one constructor per operation
that writes the struct, each taken as a whole at its mutex release: session install,
tunnel registration, `closeTunnel`, the handling of one frame from the agent, and the
agent-disconnect cleanup. -/
inductive Reachable : tunnelServer → Prop
  | init (token : String) : Reachable (newTunnelServer token)
  | install {s s' : tunnelServer} (stream : ServerStream) :
      Reachable s → installSession s stream = some s' → Reachable s'
  | register {s s' : tunnelServer} (fbConn : Conn) (connID : String) (cancel : CancelFunc)
      (ready : Chan) :
      Reachable s → registerTunnel s fbConn connID cancel ready = some s' → Reachable s'
  | close {s : tunnelServer} (connID reason : String) (sendErr : GoError) :
      Reachable s → Reachable (closeTunnel s connID reason sendErr).1
  | frame {s : tunnelServer} (f : Frame) (io : FrameIO) :
      Reachable s → Reachable (handleAgentFrame s f io).1
  | disconnect {s s' : tunnelServer} {effects : List Effect} :
      Reachable s → agentDisconnectCleanup s = some (s', effects) → Reachable s'

/-- A step of another goroutine of the server, taken while a handler is between two of
its own steps: the receive loop handles a frame, or the deferred cleanup of
`ConnectControl` runs. -/
inductive OtherStep
  | agentFrame (frame : Frame) (io : FrameIO)
  | agentDisconnect
  deriving DecidableEq, Repr

/-- One step of another goroutine; `none` is a panic in that goroutine. -/
def runOtherStep (s : tunnelServer) : OtherStep → Option (tunnelServer × List Effect)
  | .agentFrame frame io => some (handleAgentFrame s frame io)
  | .agentDisconnect => agentDisconnectCleanup s

/-- The steps `between` of other goroutines, in order. `held` is the record the handler
of `connID` points to: while the id is registered it is the registry's record (the map
stores the same pointer), and a delete leaves the record as it was. -/
def runBetween (connID : String) :
    tunnelServer → tunnelInfo → List OtherStep → Option (tunnelServer × tunnelInfo × List Effect)
  | s, held, [] => some (s, held, [])
  | s, held, step :: rest =>
    match runOtherStep s step with
    | none => none
    | some (s', effects) =>
      match runBetween connID s' ((lookup s'.activeTunnels connID).getD held) rest with
      | none => none
      | some (s'', held', effects') => some (s'', held', effects ++ effects')

/-- `handleFirebirdConnection` from its start to the outcome of its ready wait, with the
steps `between` of other goroutines taken after the START send has returned and before
the `select` evaluates `tunnel.ready` and `s.agentStream.Context()`, both read without
the mutex. The result is the struct and the effects so far and the case the `select`
takes; an inner `none` is a panic of the handler at the `select`, an outer `none` means
that the handler does not reach the wait or that another goroutine panicked. -/
def readyWaitWith (s : tunnelServer) (fbConn : Conn) (connID : String) (cancel : CancelFunc)
    (ready : Chan) (startSendErr : GoError) (between : List OtherStep) (obs : WaitObs) :
    Option (tunnelServer × List Effect × Option WaitCase) :=
  match registerTunnel s fbConn connID cancel ready with
  | none => none
  | some s1 =>
    let started := sendFrameToAgent s1
      { Typ := .START_DATA_TUNNEL, ConnectionId := connID } startSendErr
    match started.2 with
    | some _ => none
    | none =>
      match runBetween connID s1
          { firebirdConn := some fbConn, cancel := some cancel, ready := some ready }
          between with
      | none => none
      | some (s2, held, effects) =>
        some (s2, started.1 ++ effects, awaitReady held.ready s2.agentStream obs)

/-! ## Teardown paths in program order -/

/-- One step of a function in program order: a write to the registry or an effect. -/
inductive Step
  | registryDelete (connID : String)
  | registryStore (connID : String)
  | effect (e : Effect)
  deriving DecidableEq, Repr

/-- The effects among the steps, in order. -/
def stepEffects : List Step → List Effect
  | [] => []
  | .effect e :: rest => e :: stepEffects rest
  | _ :: rest => stepEffects rest

/-- The registry after the deletes among the steps. -/
def replayDeletes {α : Type} (m : List (String × α)) : List Step → List (String × α)
  | [] => m
  | .registryDelete connID :: rest => replayDeletes (delete m connID) rest
  | _ :: rest => replayDeletes m rest

/-- Step `a` occurs in the list, and no `b` occurs before its first occurrence. -/
def occursBefore (a b : Step) : List Step → Bool
  | [] => false
  | x :: rest => if x = a then true else if x = b then false else occursBefore a b rest

/-- The steps of `closeTunnel` in program order: the delete under the mutex, then the
cancel, the socket close and the notification. -/
def closeTunnelSteps (s : tunnelServer) (connID reason : String) (sendErr : GoError) :
    List Step :=
  match lookup s.activeTunnels connID with
  | none => []
  | some tunnel =>
    let s1 := { s with activeTunnels := delete s.activeTunnels connID }
    let notified : List Effect :=
      if reason ≠ "Closed by agent" ∧ reason ≠ "Failed to send to agent" then
        (sendFrameToAgent s1
          { Typ := .CLOSE_TUNNEL, ConnectionId := connID,
            Metadata := some [("reason", reason)] } sendErr).1
      else []
    Step.registryDelete connID ::
      ((cancelEffect tunnel.cancel).map Step.effect ++
        (connCloseEffect tunnel.firebirdConn).map Step.effect ++ notified.map Step.effect)

/-- The steps of the deferred cleanup of `ConnectControl` over the entries of the
registry, in program order: per entry `tunnel.cancel()`, the guarded
`tunnel.firebirdConn.Close()`, then `delete(s.activeTunnels, connID)`, all inside one
critical section; `none` is the panic on a nil `cancel`. -/
def agentDisconnectSteps : List (String × tunnelInfo) → Option (List Step)
  | [] => some []
  | (connID, tunnel) :: pending =>
    match tunnel.cancel with
    | none => none
    | some c =>
      match agentDisconnectSteps pending with
      | none => none
      | some steps =>
        some (Step.effect (.cancel c) ::
          ((connCloseEffect tunnel.firebirdConn).map Step.effect ++
            Step.registryDelete connID :: steps))

/-- The steps of `closeLocalTunnel` in program order. -/
def closeLocalTunnelSteps (a : tunnelAgent) (connID reason : String) (sendErr : GoError)
    (now : Int) : List Step :=
  match lookup a.activeConns connID with
  | none => []
  | some tunnelInfo =>
    let a1 := { a with activeConns := delete a.activeConns connID }
    let notified : List Effect :=
      if reason ≠ "Closed by server" then
        (sendFrameToServer a1 (NewCloseFrame connID reason now) sendErr).1
      else []
    Step.registryDelete connID ::
      ((cancelEffect tunnelInfo.cancel).map Step.effect ++
        (connCloseEffect tunnelInfo.fbConn).map Step.effect ++ notified.map Step.effect)

/-- One iteration of the backend-to-server pump as the environment drives it: whether
`tunnelCtx.Done()` is ready, what `Read` returns, whether a read error is `io.EOF` or a
closed-connection error (`isNetworkCloseError`), what the `Send` returns, and the clock
read by the frame constructor. -/
structure LocalPumpObs where
  ctxDone : Bool
  read : ReadResult
  readErrIsClose : Bool
  sendErr : GoError
  now : Int
  deriving DecidableEq, Repr

/-- One iteration of the pump goroutine of `startLocalFirebirdTunnel`; the second
component tells whether the goroutine goes on to the next iteration. -/
def localPumpStep (a : tunnelAgent) (connID : String) (cancel : CancelFunc)
    (o : LocalPumpObs) : List Effect × Bool :=
  if o.ctxDone then ([], false)
  else
    match o.read.err with
    | some e =>
      let reason :=
        if o.readErrIsClose then "Read error/EOF from local Firebird"
        else "Read error from local FB: " ++ e
      ((sendFrameToServer a (NewCloseFrame connID reason o.now) o.sendErr).1 ++
        [Effect.cancel cancel], false)
    | none =>
      if o.read.data.length > 0 then
        let sent := sendFrameToServer a (NewDataFrame connID o.read.data o.now) o.sendErr
        match sent.2 with
        | some _ => (sent.1 ++ [Effect.cancel cancel], false)
        | none => (sent.1, true)
      else ([], true)

/-- The pump goroutine of `startLocalFirebirdTunnel` over the iterations `obs`; the second
component tells whether the goroutine has returned. -/
def localPumpLoop (a : tunnelAgent) (connID : String) (cancel : CancelFunc) :
    List LocalPumpObs → List Effect × Bool
  | [] => ([], false)
  | o :: rest =>
    let r := localPumpStep a connID cancel o
    if r.2 then
      let r' := localPumpLoop a connID cancel rest
      (r.1 ++ r'.1, r'.2)
    else (r.1, true)

/-- The result of `dialer.DialContext`. -/
inductive DialResult
  | connected (fbConn : Conn)
  | failed (err : String)
  deriving DecidableEq, Repr

/-- The environment of one run of `startLocalFirebirdTunnel`: the dial result, the
outcomes of the sends of the ERROR, CLOSE_TUNNEL and TUNNEL_READY frames and the clock
reads of their constructors, whether the root context is cancelled at the check under
the mutex, and the iterations of the pump. -/
structure LocalTunnelEnv where
  dial : DialResult
  errorSendErr : GoError
  errorNow : Int
  closeSendErr : GoError
  closeNow : Int
  rootCancelled : Bool
  readySendErr : GoError
  readyNow : Int
  pump : List LocalPumpObs
  deriving DecidableEq, Repr

/-- `startLocalFirebirdTunnel`, run without interleaving, as the steps it takes in program
order; `cancel` is the fresh tunnel context. The deferred calls run last-in first-out:
`fbConn.Close()` (deferred after a successful dial), then the first deferred function,
`cancel()` followed by `delete(a.activeConns, connID)`. After the pump goroutine has
returned the tunnel context is done (the pump saw it done or cancelled it) and the wait
`<-tunnelCtx.Done()` ends. The third component tells whether the function has
returned. -/
def startLocalFirebirdTunnel (a : tunnelAgent) (connID : String) (cancel : CancelFunc)
    (env : LocalTunnelEnv) : tunnelAgent × List Step × Bool :=
  let deferred : List Step := [Step.effect (.cancel cancel), Step.registryDelete connID]
  match env.dial with
  | .failed err =>
    let e1 := (sendFrameToServer a
      (NewErrorFrame connID ("Failed to connect to local Firebird: " ++ err) env.errorNow)
      env.errorSendErr).1
    let e2 := (sendFrameToServer a
      (NewCloseFrame connID "Failed to connect to local Firebird" env.closeNow)
      env.closeSendErr).1
    ({ a with activeConns := delete a.activeConns connID },
      (e1 ++ e2).map Step.effect ++ deferred, true)
  | .connected fbConn =>
    if a.controlStream = none ∨ env.rootCancelled then
      ({ a with activeConns := delete a.activeConns connID },
        Step.effect (.connClose fbConn) :: deferred, true)
    else
      let a1 := { a with
        activeConns := store a.activeConns connID { fbConn := some fbConn, cancel := some cancel } }
      let ready := sendFrameToServer a1 (NewTunnelReadyFrame connID env.readyNow) env.readySendErr
      match ready.2 with
      | some _ =>
        ({ a1 with activeConns := delete a1.activeConns connID },
          Step.registryStore connID :: (ready.1.map Step.effect ++
            Step.effect (.connClose fbConn) :: deferred), true)
      | none =>
        let p := localPumpLoop a1 connID cancel env.pump
        if p.2 then
          ({ a1 with activeConns := delete a1.activeConns connID },
            Step.registryStore connID :: (ready.1.map Step.effect ++ p.1.map Step.effect ++
              Step.effect (.connClose fbConn) :: deferred), true)
        else
          (a1, Step.registryStore connID :: (ready.1.map Step.effect ++ p.1.map Step.effect),
            false)

/-! ## Lemmas on maps -/

theorem lookup_delete_self {α : Type} (m : List (String × α)) (k : String) :
    lookup (delete m k) k = none := by
  induction m with
  | nil => rfl
  | cons p rest ih =>
    obtain ⟨k', v⟩ := p
    by_cases h : k' = k
    · simpa [delete, List.filter_cons, h] using ih
    · simpa [delete, List.filter_cons, h, lookup] using ih

theorem lookup_delete_of_none {α : Type} (m : List (String × α)) (k id : String)
    (h : lookup m id = none) : lookup (delete m k) id = none := by
  induction m with
  | nil => rfl
  | cons p rest ih =>
    obtain ⟨k', v⟩ := p
    by_cases hid : k' = id
    · simp [lookup, hid] at h
    · have hrest : lookup rest id = none := by simpa [lookup, hid] using h
      by_cases hk : k' = k
      · simpa [delete, List.filter_cons, hk] using ih hrest
      · simpa [delete, List.filter_cons, hk, lookup, hid] using ih hrest

theorem lookup_assign_of_none {α : Type} (m : List (String × α)) (k id : String) (v : α)
    (h : lookup m id = none) : lookup (assign m k v) id = none := by
  induction m with
  | nil => rfl
  | cons p rest ih =>
    obtain ⟨k', v'⟩ := p
    by_cases hid : k' = id
    · simp [lookup, hid] at h
    · have hrest : lookup rest id = none := by simpa [lookup, hid] using h
      by_cases hk : k' = k
      · simp [assign, hk, lookup, hk ▸ hid, hrest]
      · simp [assign, hk, lookup, hid, ih hrest]

theorem lookup_assign_self {α : Type} (m : List (String × α)) (k : String) (v₀ v : α)
    (h : lookup m k = some v₀) : lookup (assign m k v) k = some v := by
  induction m with
  | nil => simp [lookup] at h
  | cons p rest ih =>
    obtain ⟨k', v'⟩ := p
    by_cases hk : k' = k
    · simp [assign, hk, lookup]
    · have hrest : lookup rest k = some v₀ := by simpa [lookup, hk] using h
      simp [assign, hk, lookup, ih hrest]

/-! ## Lemmas on the close paths -/

theorem closeTunnel_of_absent (s : tunnelServer) (id reason : String) (e : GoError)
    (h : lookup s.activeTunnels id = none) : closeTunnel s id reason e = (s, []) := by
  simp [closeTunnel, h]

theorem closeTunnel_absent_after (s : tunnelServer) (id reason : String) (e : GoError) :
    lookup (closeTunnel s id reason e).1.activeTunnels id = none := by
  unfold closeTunnel
  cases h : lookup s.activeTunnels id with
  | none => simpa using h
  | some t => simpa using lookup_delete_self s.activeTunnels id

theorem closeTunnel_keeps_absent (s : tunnelServer) (k id reason : String) (e : GoError)
    (h : lookup s.activeTunnels id = none) :
    lookup (closeTunnel s k reason e).1.activeTunnels id = none := by
  unfold closeTunnel
  cases hk : lookup s.activeTunnels k with
  | none => simpa using h
  | some t => simpa using lookup_delete_of_none s.activeTunnels k id h

theorem closeLocalTunnel_of_absent (a : tunnelAgent) (id reason : String) (e : GoError)
    (now : Int) (h : lookup a.activeConns id = none) :
    closeLocalTunnel a id reason e now = (a, []) := by
  simp [closeLocalTunnel, h]

theorem closeLocalTunnel_absent_after (a : tunnelAgent) (id reason : String) (e : GoError)
    (now : Int) : lookup (closeLocalTunnel a id reason e now).1.activeConns id = none := by
  unfold closeLocalTunnel
  cases h : lookup a.activeConns id with
  | none => simpa using h
  | some t => simpa using lookup_delete_self a.activeConns id

theorem closeLocalTunnel_keeps_absent (a : tunnelAgent) (k id reason : String) (e : GoError)
    (now : Int) (h : lookup a.activeConns id = none) :
    lookup (closeLocalTunnel a k reason e now).1.activeConns id = none := by
  unfold closeLocalTunnel
  cases hk : lookup a.activeConns k with
  | none => simpa using h
  | some t => simpa using lookup_delete_of_none a.activeConns k id h

/-! ## Frames for an unregistered id -/

theorem handleAgentFrame_of_absent (s : tunnelServer) (f : Frame) (io : FrameIO)
    (h : lookup s.activeTunnels f.ConnectionId = none) : handleAgentFrame s f io = (s, []) := by
  unfold handleAgentFrame
  by_cases ht : f.Typ = FrameType.TUNNEL_READY
  · simp [h, ht]
  · simp [h, ht]

theorem handleAgentFrame_keeps_absent (s : tunnelServer) (f : Frame) (io : FrameIO)
    (id : String) (h : lookup s.activeTunnels id = none) :
    lookup (handleAgentFrame s f io).1.activeTunnels id = none := by
  unfold handleAgentFrame
  simp only
  split
  · exact h
  · split
    · split
      · split
        · exact lookup_assign_of_none _ _ _ _ h
        · exact h
      · exact h
    · split
      · exact h
      · split
        · exact h
        · split
          · exact h
          · exact closeTunnel_keeps_absent _ _ _ _ _ h
    · exact closeTunnel_keeps_absent _ _ _ _ _ h
    · exact closeTunnel_keeps_absent _ _ _ _ _ h
    · exact h

theorem recvLoop_keeps_absent (frames : List (Frame × FrameIO)) (s : tunnelServer)
    (id : String) (h : lookup s.activeTunnels id = none) :
    lookup (recvLoop s frames).1.activeTunnels id = none := by
  induction frames generalizing s with
  | nil => exact h
  | cons p rest ih =>
    obtain ⟨f, io⟩ := p
    exact ih _ (handleAgentFrame_keeps_absent s f io id h)

theorem handleServerFrame_keeps_absent (a : tunnelAgent) (f : Frame) (io : ServerFrameIO)
    (id : String) (h : lookup a.activeConns id = none) :
    lookup (handleServerFrame a f io).1.activeConns id = none := by
  unfold handleServerFrame
  split
  · exact h
  · split
    · split
      · exact h
      · exact closeLocalTunnel_keeps_absent _ _ _ _ _ _ h
    · exact h
  · exact closeLocalTunnel_keeps_absent _ _ _ _ _ _ h
  · exact h

theorem handleServerFrames_keeps_absent (frames : List (Frame × ServerFrameIO))
    (a : tunnelAgent) (id : String) (h : lookup a.activeConns id = none) :
    lookup (handleServerFrames a frames).1.activeConns id = none := by
  induction frames generalizing a with
  | nil => exact h
  | cons p rest ih =>
    obtain ⟨f, io⟩ := p
    exact ih _ (handleServerFrame_keeps_absent a f io id h)

theorem handleServerFrame_no_write_of_absent (a : tunnelAgent) (f : Frame)
    (io : ServerFrameIO) (h : lookup a.activeConns f.ConnectionId = none) :
    (handleServerFrame a f io).2.filter Effect.isWrite = [] := by
  unfold handleServerFrame
  split
  · simp [Effect.isWrite]
  · simp only [h, Option.none_bind]
    unfold sendFrameToServer
    cases a.controlStream <;> simp [Effect.isWrite]
  · rw [closeLocalTunnel_of_absent _ _ _ _ _ h]
    rfl
  · rfl

/-! ## The agent-disconnect cleanup -/

theorem agentDisconnectLoop_eq (pending m : List (String × tunnelInfo))
    (hwf : ∀ p ∈ pending, p.2.cancel ≠ none) :
    agentDisconnectLoop pending m =
      some (m.filter (fun p => decide (p.1 ∉ pending.map Prod.fst)), teardownEffects pending) := by
  induction pending generalizing m with
  | nil => simp [agentDisconnectLoop, teardownEffects]
  | cons q rest ih =>
    obtain ⟨k, t⟩ := q
    have ht : t.cancel ≠ none := hwf (k, t) (List.mem_cons_self _ _)
    have hrest : ∀ p ∈ rest, p.2.cancel ≠ none := fun p hp => hwf p (List.mem_cons_of_mem _ hp)
    obtain ⟨c, hc⟩ := Option.ne_none_iff_exists'.mp ht
    simp only [agentDisconnectLoop, hc, ih (delete m k) hrest, teardownEffects, cancelEffect,
      List.singleton_append, List.cons_append, Option.some.injEq, Prod.mk.injEq, and_true,
      List.append_assoc]
    simp only [delete, List.filter_filter, List.map_cons, List.mem_cons]
    refine ⟨?_, by simp⟩
    apply List.filter_congr
    intro p _
    by_cases h1 : p.1 = k <;> by_cases h2 : p.1 ∈ rest.map Prod.fst <;> simp [h1, h2]

theorem teardownEffects_cancel (m : List (String × tunnelInfo)) (id : String) (t : tunnelInfo)
    (c : CancelFunc) (hmem : (id, t) ∈ m) (hc : t.cancel = some c) :
    Effect.cancel c ∈ teardownEffects m := by
  induction m with
  | nil => simp at hmem
  | cons q rest ih =>
    obtain ⟨k, t'⟩ := q
    rcases List.mem_cons.mp hmem with h | h
    · cases h
      simp [teardownEffects, hc, cancelEffect]
    · simp only [teardownEffects, List.mem_append]
      exact Or.inr (ih h)

theorem teardownEffects_connClose (m : List (String × tunnelInfo)) (id : String)
    (t : tunnelInfo) (k : Conn) (hmem : (id, t) ∈ m) (hk : t.firebirdConn = some k) :
    Effect.connClose k ∈ teardownEffects m := by
  induction m with
  | nil => simp at hmem
  | cons q rest ih =>
    obtain ⟨k', t'⟩ := q
    rcases List.mem_cons.mp hmem with h | h
    · cases h
      simp [teardownEffects, hk, connCloseEffect]
    · simp only [teardownEffects, List.mem_append]
      exact Or.inr (ih h)

theorem teardownEffects_no_send (m : List (String × tunnelInfo)) :
    (teardownEffects m).filter Effect.isSend = [] := by
  induction m with
  | nil => rfl
  | cons q rest ih =>
    obtain ⟨k, t⟩ := q
    simp only [teardownEffects, List.filter_append, ih, List.append_nil]
    cases t.cancel <;> cases t.firebirdConn <;> simp [cancelEffect, connCloseEffect, Effect.isSend]

/-! ## The bearer prefix -/

theorem hasBearerPrefix_append (t : String) (ht : t ≠ "") :
    hasBearerPrefix ("Bearer " ++ t) = true := by
  have hdata : t.data ≠ [] := fun h => ht (String.ext h)
  have hlen : 0 < t.data.length := List.length_pos.mpr hdata
  have hpre : ("Bearer " : String).data.length = 7 := rfl
  simp only [hasBearerPrefix, expectedPrefix, String.data_append, List.length_append, hpre,
    Bool.and_eq_true, decide_eq_true_eq]
  refine ⟨by omega, ?_⟩
  rw [List.take_append_of_le_length (by rw [hpre])]
  exact List.take_of_length_le (by rw [hpre])

theorem bearerToken_append (t : String) (ht : t ≠ "") : bearerToken ("Bearer " ++ t) = t := by
  have hpre : ("Bearer " : String).data.length = 7 := rfl
  simp only [bearerToken, hasBearerPrefix_append t ht, if_true, expectedPrefix,
    String.data_append, hpre]
  apply String.ext
  show List.drop 7 (("Bearer " : String).data ++ t.data) = t.data
  rw [List.drop_append_of_le_length (by rw [hpre])]
  rfl

theorem eq_append_of_bearerToken (v : String) (h : hasBearerPrefix v = true) :
    v = "Bearer " ++ bearerToken v := by
  have hpre : ("Bearer " : String).data.length = 7 := rfl
  have htake : v.data.take 7 = ("Bearer " : String).data := by
    simp only [hasBearerPrefix, expectedPrefix, hpre, Bool.and_eq_true, decide_eq_true_eq] at h
    exact h.2
  apply String.ext
  simp only [bearerToken, h, if_true, expectedPrefix, String.data_append, hpre]
  show v.data = ("Bearer " : String).data ++ List.drop 7 v.data
  rw [← htake]
  exact (List.take_append_drop 7 v.data).symm

/-! ## The reconnect delay -/

theorem delayAfter_zero : delayAfter 0 = wrapInt64 (1 * Second) := by
  decide

theorem wrapInt64_one_second : wrapInt64 (1 * Second) = 1 * Second := by
  decide

theorem delayAfter_succ (j : Nat) :
    (if wrapInt64 (delayAfter j * 2) > maxReconnectDelay then maxReconnectDelay
      else wrapInt64 (delayAfter j * 2)) = delayAfter (j + 1) := by
  by_cases hj : j ≤ 4
  · interval_cases j <;> decide
  · have h5 : 5 ≤ j := by omega
    have h32 : 2 ^ 5 ≤ 2 ^ j := Nat.pow_le_pow_right (by norm_num) h5
    have h64 : 2 ^ 5 ≤ 2 ^ (j + 1) := Nat.pow_le_pow_right (by norm_num) (by omega)
    have hm : min (2 ^ j) 30 = 30 := by
      apply Nat.min_eq_right
      norm_num at h32
      omega
    have hm' : min (2 ^ (j + 1)) 30 = 30 := by
      apply Nat.min_eq_right
      norm_num at h64
      omega
    simp only [delayAfter, hm, hm']
    decide

theorem consecutiveFailuresBefore_prefix (pre rest : List Bool) :
    consecutiveFailuresBefore (pre ++ rest) pre.length =
      ((pre.reverse).takeWhile (fun b => b)).length := by
  simp [consecutiveFailuresBefore]

theorem trailing_snoc_true (pre : List Bool) :
    (((pre ++ [true]).reverse).takeWhile (fun b => b)).length =
      ((pre.reverse).takeWhile (fun b => b)).length + 1 := by
  simp [List.takeWhile]

theorem trailing_snoc_false (pre : List Bool) :
    (((pre ++ [false]).reverse).takeWhile (fun b => b)).length = 0 := by
  simp [List.takeWhile]

theorem runControlLoopFrom_spec (attempts : List Attempt) (pre : List Bool)
    (hlive : ∀ a ∈ attempts, a.cancelledBefore = false ∧ a.cancelledAfter = false)
    (i : Nat) (hi : i < attempts.length) :
    (runControlLoopFrom (delayAfter (((pre.reverse).takeWhile (fun b => b)).length))
        attempts)[i]? =
      some (specifiedSleep (pre ++ attempts.map Attempt.failed) (pre.length + i)) := by
  induction attempts generalizing pre i with
  | nil => simp at hi
  | cons a rest ih =>
    obtain ⟨hb, ha⟩ := hlive a (List.mem_cons_self _ _)
    have hrest : ∀ a' ∈ rest, a'.cancelledBefore = false ∧ a'.cancelledAfter = false :=
      fun a' h => hlive a' (List.mem_cons_of_mem _ h)
    have hflag : (pre ++ (a :: rest).map Attempt.failed).getD pre.length false = a.failed := by
      rw [List.getD_eq_getElem?_getD, List.getElem?_append_right (le_refl _)]
      simp
    have hassoc : pre ++ (a :: rest).map Attempt.failed =
        (pre ++ [a.failed]) ++ rest.map Attempt.failed := by simp
    cases herr : a.err with
    | none =>
      have hf : a.failed = false := by simp [Attempt.failed, herr]
      cases i with
      | zero =>
        simp only [runControlLoopFrom, hb, ha, herr, specifiedSleep, Nat.add_zero, hflag, hf]
        simp only [Bool.false_eq_true, if_false, List.getElem?_cons_zero, wrapInt64_one_second]
      | succ n =>
        have hn : n < rest.length := by simpa using hi
        have := ih (pre ++ [false]) hrest n hn
        rw [trailing_snoc_false, delayAfter_zero] at this
        simp only [runControlLoopFrom, hb, ha, herr, Bool.false_eq_true, if_false,
          List.getElem?_cons_succ]
        rw [this, hassoc, hf]
        simp [Nat.add_assoc, Nat.add_comm 1 n]
    | some e =>
      have hf : a.failed = true := by simp [Attempt.failed, herr]
      cases i with
      | zero =>
        simp only [runControlLoopFrom, hb, ha, herr, specifiedSleep, Nat.add_zero, hflag, hf,
          consecutiveFailuresBefore_prefix]
        simp [delayAfter]
      | succ n =>
        have hn : n < rest.length := by simpa using hi
        have := ih (pre ++ [true]) hrest n hn
        rw [trailing_snoc_true] at this
        simp only [runControlLoopFrom, hb, ha, herr, Bool.false_eq_true, if_false,
          List.getElem?_cons_succ, delayAfter_succ]
        rw [this, hassoc, hf]
        simp [Nat.add_assoc, Nat.add_comm 1 n]

theorem runControlLoopFrom_length (attempts : List Attempt) (d : Duration)
    (hlive : ∀ a ∈ attempts, a.cancelledBefore = false ∧ a.cancelledAfter = false) :
    (runControlLoopFrom d attempts).length = attempts.length := by
  induction attempts generalizing d with
  | nil => rfl
  | cons a rest ih =>
    obtain ⟨hb, ha⟩ := hlive a (List.mem_cons_self _ _)
    have hrest : ∀ a' ∈ rest, a'.cancelledBefore = false ∧ a'.cancelledAfter = false :=
      fun a' h => hlive a' (List.mem_cons_of_mem _ h)
    cases herr : a.err <;> simp [runControlLoopFrom, hb, ha, herr, ih _ hrest]

/-! ## The ready signal -/

theorem delete_cons_eq {α : Type} (rest : List (String × α)) (k : String) (v : α) :
    delete ((k, v) :: rest) k = delete rest k := by
  simp [delete, List.filter_cons]

theorem delete_cons_ne {α : Type} (rest : List (String × α)) (k' k : String) (v : α)
    (h : k' ≠ k) : delete ((k', v) :: rest) k = (k', v) :: delete rest k := by
  simp [delete, List.filter_cons, h]

theorem lookup_delete {α : Type} (m : List (String × α)) (k id : String) :
    lookup (delete m k) id = if k = id then none else lookup m id := by
  induction m with
  | nil => simp [delete, lookup]
  | cons p rest ih =>
    obtain ⟨k', v⟩ := p
    by_cases hk : k' = k
    · subst hk
      rw [delete_cons_eq, ih]
      by_cases hid : k' = id
      · simp [hid]
      · simp [hid, lookup]
    · rw [delete_cons_ne _ _ _ _ hk]
      by_cases hid : k' = id
      · subst hid
        have hne : ¬ k = k' := fun h => hk h.symm
        simp [lookup, hne]
      · simp [lookup, hid, ih]

theorem lookup_assign {α : Type} (m : List (String × α)) (k id : String) (v : α) :
    lookup (assign m k v) id =
      if k = id then (lookup m id).map (fun _ => v) else lookup m id := by
  induction m with
  | nil => simp [assign, lookup]
  | cons p rest ih =>
    obtain ⟨k', v'⟩ := p
    by_cases hk : k' = k
    · subst hk
      by_cases hid : k' = id
      · simp [assign, hid, lookup]
      · simp [assign, hid, lookup]
    · by_cases hid : k' = id
      · subst hid
        have hne : ¬ k = k' := fun h => hk h.symm
        simp [assign, hk, lookup, hne]
      · simp [assign, hk, hid, lookup, ih]

theorem closedChans_append (l₁ l₂ : List Effect) :
    closedChans (l₁ ++ l₂) = closedChans l₁ ++ closedChans l₂ := by
  induction l₁ with
  | nil => rfl
  | cons e rest ih => cases e <;> simp [closedChans, ih]

theorem count_chanClose (l : List Effect) (ch : Chan) :
    l.count (Effect.chanClose ch) = (closedChans l).count ch := by
  induction l with
  | nil => rfl
  | cons e rest ih =>
    cases e with
    | chanClose c =>
      by_cases h : c = ch
      · simp [closedChans, h, ih]
      · have h' : ¬ Effect.chanClose c = Effect.chanClose ch := fun he => h (by injection he)
        simp [closedChans, List.count_cons, h, h', ih]
    | _ => simp [closedChans, List.count_cons, ih]

theorem closedChans_sendFrameToAgent (s : tunnelServer) (f : Frame) (e : GoError) :
    closedChans (sendFrameToAgent s f e).1 = [] := by
  unfold sendFrameToAgent
  cases s.agentStream with
  | none => rfl
  | some st =>
    cases e with
    | none => rfl
    | some err => by_cases h : f.ConnectionId = "" <;> simp [h, closedChans]

theorem closedChans_closeTunnel (s : tunnelServer) (id reason : String) (e : GoError) :
    closedChans (closeTunnel s id reason e).2 = [] := by
  unfold closeTunnel
  cases lookup s.activeTunnels id with
  | none => rfl
  | some t =>
    simp only [closedChans_append]
    have h1 : closedChans (cancelEffect t.cancel) = [] := by
      cases t.cancel <;> rfl
    have h2 : closedChans (connCloseEffect t.firebirdConn) = [] := by
      cases t.firebirdConn <;> rfl
    rw [h1, h2]
    split
    · simp [closedChans_sendFrameToAgent]
    · rfl

theorem readyChans_closeTunnel (s : tunnelServer) (id reason : String) (e : GoError) :
    (readyChans (closeTunnel s id reason e).1).Sublist (readyChans s) := by
  unfold closeTunnel
  cases lookup s.activeTunnels id with
  | none => exact List.Sublist.refl _
  | some t => exact (List.filter_sublist _).filterMap _

theorem filterMap_ready_assign (m : List (String × tunnelInfo)) (id : String)
    (tunnel : tunnelInfo) (ch : Chan) (hreg : lookup m id = some tunnel)
    (hch : tunnel.ready = some ch) :
    ∃ l₁ l₂, m.filterMap (fun p => p.2.ready) = l₁ ++ ch :: l₂ ∧
      (assign m id { tunnel with ready := none }).filterMap (fun p => p.2.ready) = l₁ ++ l₂ := by
  induction m with
  | nil => simp [lookup] at hreg
  | cons p rest ih =>
    obtain ⟨k, t⟩ := p
    by_cases hk : k = id
    · have ht : t = tunnel := by simpa [lookup, hk] using hreg
      subst ht
      exact ⟨[], rest.filterMap (fun p => p.2.ready), by simp [List.filterMap_cons, hch],
        by simp [assign, hk, List.filterMap_cons]⟩
    · have hrest : lookup rest id = some tunnel := by simpa [lookup, hk] using hreg
      obtain ⟨l₁, l₂, h1, h2⟩ := ih hrest
      cases hr : t.ready with
      | none => exact ⟨l₁, l₂, by simp [List.filterMap_cons, hr, h1],
          by simp [assign, hk, List.filterMap_cons, hr, h2]⟩
      | some c => exact ⟨c :: l₁, l₂, by simp [List.filterMap_cons, hr, h1],
          by simp [assign, hk, List.filterMap_cons, hr, h2]⟩

/-- What one handled frame does to the ready channels: the channels it closes were held
by the registry, are closed once, and are no longer held afterwards; the registry holds
no channel it did not hold before. -/
theorem handleAgentFrame_ready (s : tunnelServer) (f : Frame) (io : FrameIO)
    (hfresh : (readyChans s).Nodup) :
    (readyChans (handleAgentFrame s f io).1).Sublist (readyChans s) ∧
    (closedChans (handleAgentFrame s f io).2).Nodup ∧
    (∀ ch ∈ closedChans (handleAgentFrame s f io).2,
      ch ∈ readyChans s ∧ ch ∉ readyChans (handleAgentFrame s f io).1) := by
  have hsame : (readyChans s).Sublist (readyChans s) ∧ (closedChans ([] : List Effect)).Nodup ∧
      (∀ ch ∈ closedChans ([] : List Effect), ch ∈ readyChans s ∧ ch ∉ readyChans s) :=
    ⟨List.Sublist.refl _, List.nodup_nil, by simp [closedChans]⟩
  have hclose : ∀ (reason : String) (pre : List Effect), closedChans pre = [] →
      (readyChans (closeTunnel s f.ConnectionId reason io.sendErr).1).Sublist (readyChans s) ∧
      (closedChans (pre ++ (closeTunnel s f.ConnectionId reason io.sendErr).2)).Nodup ∧
      (∀ ch ∈ closedChans (pre ++ (closeTunnel s f.ConnectionId reason io.sendErr).2),
        ch ∈ readyChans s ∧
          ch ∉ readyChans (closeTunnel s f.ConnectionId reason io.sendErr).1) := by
    intro reason pre hpre
    rw [closedChans_append, hpre, closedChans_closeTunnel]
    exact ⟨readyChans_closeTunnel _ _ _ _, List.nodup_nil, by simp⟩
  unfold handleAgentFrame
  simp only
  split
  · exact hsame
  · split
    · split
      · rename_i tunnel hreg
        split
        · rename_i ch hch
          obtain ⟨l₁, l₂, h1, h2⟩ :=
            filterMap_ready_assign s.activeTunnels f.ConnectionId tunnel ch hreg hch
          have hnd : (l₁ ++ ch :: l₂).Nodup := by
            have := hfresh
            rwa [readyChans, h1] at this
          have hnot : ch ∉ l₁ ++ l₂ := by
            have h := List.nodup_middle.mp hnd
            exact (List.nodup_cons.mp h).1
          refine ⟨?_, by simp [closedChans], ?_⟩
          · show (List.filterMap _ _).Sublist (readyChans s)
            rw [h2, readyChans, h1]
            exact List.Sublist.append (List.Sublist.refl _) (List.sublist_cons_self _ _)
          · intro c hc
            have hc' : c = ch := by simpa [closedChans] using hc
            subst hc'
            refine ⟨by simp [readyChans, h1], ?_⟩
            show c ∉ List.filterMap _ _
            rw [h2]
            exact hnot
        · exact hsame
      · exact hsame
    · split
      · exact hsame
      · split
        · exact hsame
        · split
          · exact ⟨List.Sublist.refl _, by simp [closedChans], by simp [closedChans]⟩
          · exact hclose _ [Effect.connWrite _ f.Payload] rfl
    · simpa using hclose "Closed by agent" [] rfl
    · simpa using hclose "Error reported by agent" [] rfl
    · exact hsame

theorem recvLoop_ready (frames : List (Frame × FrameIO)) (s : tunnelServer)
    (hfresh : (readyChans s).Nodup) :
    (closedChans (recvLoop s frames).2).Nodup ∧
    (∀ ch ∈ closedChans (recvLoop s frames).2, ch ∈ readyChans s) := by
  induction frames generalizing s with
  | nil => simp [recvLoop, closedChans]
  | cons p rest ih =>
    obtain ⟨f, io⟩ := p
    obtain ⟨hsub, hnd, hmem⟩ := handleAgentFrame_ready s f io hfresh
    obtain ⟨ihnd, ihmem⟩ := ih (handleAgentFrame s f io).1 (hsub.nodup hfresh)
    simp only [recvLoop, closedChans_append]
    refine ⟨List.nodup_append.mpr ⟨hnd, ihnd, ?_⟩, ?_⟩
    · intro c hc1 hc2
      exact (hmem c hc1).2 (ihmem c hc2)
    · intro c hc
      rcases List.mem_append.mp hc with h | h
      · exact (hmem c h).1
      · exact hsub.subset (ihmem c h)

theorem notWaiting_closeTunnel (s : tunnelServer) (k reason id : String) (e : GoError)
    (h : notWaiting s id) : notWaiting (closeTunnel s k reason e).1 id := by
  unfold closeTunnel
  cases hk : lookup s.activeTunnels k with
  | none => exact h
  | some t =>
    intro tunnel ht
    simp only [lookup_delete] at ht
    by_cases hid : k = id
    · simp [hid] at ht
    · simp only [hid, if_false] at ht
      exact h tunnel ht

theorem notWaiting_handleAgentFrame (s : tunnelServer) (f : Frame) (io : FrameIO)
    (id : String) (h : notWaiting s id) : notWaiting (handleAgentFrame s f io).1 id := by
  unfold handleAgentFrame
  simp only
  split
  · exact h
  · split
    · split
      · split
        · intro tunnel ht
          simp only [lookup_assign] at ht
          by_cases hid : f.ConnectionId = id
          · simp only [hid, if_true] at ht
            cases hl : lookup s.activeTunnels id with
            | none => simp [hl] at ht
            | some t0 =>
              simp only [hl, Option.map_some', Option.some.injEq] at ht
              rw [← ht]
          · simp only [hid, if_false] at ht
            exact h tunnel ht
        · exact h
      · exact h
    · split
      · exact h
      · split
        · exact h
        · split
          · exact h
          · exact notWaiting_closeTunnel _ _ _ _ _ h
    · exact notWaiting_closeTunnel _ _ _ _ _ h
    · exact notWaiting_closeTunnel _ _ _ _ _ h
    · exact h

theorem notWaiting_recvLoop (frames : List (Frame × FrameIO)) (s : tunnelServer)
    (id : String) (h : notWaiting s id) : notWaiting (recvLoop s frames).1 id := by
  induction frames generalizing s with
  | nil => exact h
  | cons p rest ih =>
    obtain ⟨f, io⟩ := p
    exact ih _ (notWaiting_handleAgentFrame s f io id h)

theorem notWaiting_after_ready (s : tunnelServer) (f : Frame) (io : FrameIO)
    (hf : f.Typ = .TUNNEL_READY) : notWaiting (handleAgentFrame s f io).1 f.ConnectionId := by
  intro tunnel ht
  cases hl : lookup s.activeTunnels f.ConnectionId with
  | none =>
    rw [handleAgentFrame_of_absent s f io hl, hl] at ht
    cases ht
  | some t =>
    cases hr : t.ready with
    | none =>
      have : handleAgentFrame s f io = (s, []) := by simp [handleAgentFrame, hf, hl, hr]
      rw [this, hl] at ht
      cases ht
      exact hr
    | some ch =>
      have : (handleAgentFrame s f io).1 =
          { s with activeTunnels :=
              assign s.activeTunnels f.ConnectionId { t with ready := none } } := by
        simp [handleAgentFrame, hf, hl, hr]
      rw [this] at ht
      simp only [lookup_assign, if_true, hl, Option.map_some', Option.some.injEq] at ht
      rw [← ht]

theorem handleAgentFrame_ready_of_notWaiting (s : tunnelServer) (f : Frame) (io : FrameIO)
    (hf : f.Typ = .TUNNEL_READY) (h : notWaiting s f.ConnectionId) :
    handleAgentFrame s f io = (s, []) := by
  cases hl : lookup s.activeTunnels f.ConnectionId with
  | none => exact handleAgentFrame_of_absent s f io hl
  | some t => simp [handleAgentFrame, hf, hl, h t hl]

/-! ## The client-to-backend direction -/

theorem pumpLoop_successful (connID : String) (s : tunnelServer) (stream : ServerStream)
    (obs : List PumpObs) (hs : s.agentStream = some stream)
    (hobs : ∀ o ∈ obs, o.ctxDone = false ∧ o.read.err = none ∧ o.sendErr = none) :
    pumpLoop connID s obs =
      (s, (dataFrames connID (obs.map (fun o => o.read.data))).map
        (fun f => Effect.streamSend stream.id f), false) := by
  induction obs with
  | nil => rfl
  | cons o rest ih =>
    obtain ⟨h1, h2, h3⟩ := hobs o (List.mem_cons_self _ _)
    have hrest := ih (fun o' h => hobs o' (List.mem_cons_of_mem _ h))
    cases hd : o.read.data with
    | nil =>
      have hstep : pumpStep s connID o = (s, [], true) := by
        simp [pumpStep, h1, h2, hd]
      simp [pumpLoop, hstep, hrest, dataFrames, hd]
    | cons b bs =>
      have hstep : pumpStep s connID o =
          (s, [Effect.streamSend stream.id
            { Typ := .DATA, ConnectionId := connID, Payload := b :: bs }], true) := by
        simp [pumpStep, h1, h2, hd, sendFrameToAgent, hs, h3]
      simp [pumpLoop, hstep, hrest, dataFrames, hd]

theorem sentOn_map_streamSend (st : Nat) (frames : List Frame) :
    sentOn st (frames.map (fun f => Effect.streamSend st f)) = frames := by
  induction frames with
  | nil => rfl
  | cons f rest ih => simp [sentOn, ih]

theorem flatten_payload_dataFrames (connID : String) (chunks : List Bytes) :
    ((dataFrames connID chunks).map (fun f => f.Payload)).flatten = chunks.flatten := by
  induction chunks with
  | nil => rfl
  | cons c rest ih =>
    cases c with
    | nil => simpa [dataFrames] using ih
    | cons b bs =>
      have hcons : dataFrames connID ((b :: bs) :: rest) =
          { Typ := .DATA, ConnectionId := connID, Payload := b :: bs } ::
            dataFrames connID rest := by
        simp [dataFrames, List.filter_cons]
      rw [hcons, List.map_cons, List.flatten_cons, ih, List.flatten_cons]

theorem mem_dataFrames (connID : String) (chunks : List Bytes) (f : Frame)
    (h : f ∈ dataFrames connID chunks) : f.Typ = .DATA ∧ f.ConnectionId = connID := by
  simp only [dataFrames, List.mem_map] at h
  obtain ⟨c, _, rfl⟩ := h
  exact ⟨rfl, rfl⟩

theorem handleServerFrames_data (a : tunnelAgent) (connID : String) (info : localTunnelInfo)
    (k : Conn) (arrivals : List (Frame × ServerFrameIO))
    (ha : lookup a.activeConns connID = some info) (hk : info.fbConn = some k)
    (hdata : ∀ p ∈ arrivals, p.1.Typ = .DATA ∧ p.1.ConnectionId = connID ∧ p.2.writeErr = none) :
    handleServerFrames a arrivals =
      (a, arrivals.map (fun p => Effect.connWrite k p.1.Payload)) := by
  induction arrivals with
  | nil => rfl
  | cons p rest ih =>
    obtain ⟨f, io⟩ := p
    obtain ⟨h1, h2, h3⟩ := hdata (f, io) (List.mem_cons_self _ _)
    have hrest := ih (fun p' h => hdata p' (List.mem_cons_of_mem _ h))
    have hstep : handleServerFrame a f io = (a, [Effect.connWrite k f.Payload]) := by
      simp only at h1 h2 h3
      simp [handleServerFrame, h1, h2, ha, hk, h3]
    simp [handleServerFrames, hstep, hrest]

theorem writtenTo_map_connWrite (k : Conn) (arrivals : List (Frame × ServerFrameIO)) :
    writtenTo k (arrivals.map (fun p => Effect.connWrite k p.1.Payload)) =
      (arrivals.map (fun p => p.1.Payload)).flatten := by
  induction arrivals with
  | nil => rfl
  | cons p rest ih => simp [writtenTo, ih]

theorem flatten_take_prefix {α : Type} (l : List (List α)) (n : Nat) :
    (l.take n).flatten <+: l.flatten := by
  refine ⟨(l.drop n).flatten, ?_⟩
  rw [← List.flatten_append, List.take_append_drop]

/-! ## Registered records carry a cancel function -/

theorem mem_delete {α : Type} (m : List (String × α)) (k : String) (p : String × α)
    (h : p ∈ delete m k) : p ∈ m :=
  List.mem_of_mem_filter h

theorem mem_assign {α : Type} (m : List (String × α)) (k : String) (v : α) (p : String × α)
    (h : p ∈ assign m k v) : p ∈ m ∨ p.2 = v := by
  induction m with
  | nil => simp [assign] at h
  | cons q rest ih =>
    obtain ⟨k', v'⟩ := q
    by_cases hk : k' = k
    · simp only [assign, hk, if_true, List.mem_cons] at h
      rcases h with h | h
      · exact Or.inr (by rw [h])
      · exact Or.inl (List.mem_cons_of_mem _ h)
    · simp only [assign, hk, if_false, List.mem_cons] at h
      rcases h with h | h
      · exact Or.inl (by rw [h]; exact List.mem_cons_self _ _)
      · rcases ih h with h' | h'
        · exact Or.inl (List.mem_cons_of_mem _ h')
        · exact Or.inr h'

theorem mem_of_lookup {α : Type} (m : List (String × α)) (k : String) (v : α)
    (h : lookup m k = some v) : (k, v) ∈ m := by
  induction m with
  | nil => simp [lookup] at h
  | cons q rest ih =>
    obtain ⟨k', v'⟩ := q
    by_cases hk : k' = k
    · simp only [lookup, hk, if_true, Option.some.injEq] at h
      rw [hk, h]
      exact List.mem_cons_self _ _
    · simp only [lookup, hk, if_false] at h
      exact List.mem_cons_of_mem _ (ih h)

theorem recordsHaveCancel_new (token : String) : recordsHaveCancel (newTunnelServer token) := by
  intro p hp
  simp [newTunnelServer] at hp

theorem recordsHaveCancel_closeTunnel (s : tunnelServer) (id reason : String) (e : GoError)
    (h : recordsHaveCancel s) : recordsHaveCancel (closeTunnel s id reason e).1 := by
  unfold closeTunnel
  cases lookup s.activeTunnels id with
  | none => exact h
  | some t => exact fun p hp => h p (mem_delete _ _ _ hp)

theorem recordsHaveCancel_handleAgentFrame (s : tunnelServer) (f : Frame) (io : FrameIO)
    (h : recordsHaveCancel s) : recordsHaveCancel (handleAgentFrame s f io).1 := by
  unfold handleAgentFrame
  simp only
  split
  · exact h
  · split
    · split
      · rename_i tunnel hreg
        split
        · intro p hp
          rcases mem_assign _ _ _ _ hp with h' | h'
          · exact h p h'
          · rw [h']
            exact h _ (mem_of_lookup _ _ _ hreg)
        · exact h
      · exact h
    · split
      · exact h
      · split
        · exact h
        · split
          · exact h
          · exact recordsHaveCancel_closeTunnel _ _ _ _ h
    · exact recordsHaveCancel_closeTunnel _ _ _ _ h
    · exact recordsHaveCancel_closeTunnel _ _ _ _ h
    · exact h

theorem recordsHaveCancel_recvLoop (frames : List (Frame × FrameIO)) (s : tunnelServer)
    (h : recordsHaveCancel s) : recordsHaveCancel (recvLoop s frames).1 := by
  induction frames generalizing s with
  | nil => exact h
  | cons p rest ih =>
    obtain ⟨f, io⟩ := p
    exact ih _ (recordsHaveCancel_handleAgentFrame s f io h)

theorem recordsHaveCancel_pumpLoop (connID : String) (obs : List PumpObs) (s : tunnelServer)
    (h : recordsHaveCancel s) : recordsHaveCancel (pumpLoop connID s obs).1 := by
  induction obs generalizing s with
  | nil => exact h
  | cons o rest ih =>
    have hstep : recordsHaveCancel (pumpStep s connID o).1 := by
      unfold pumpStep
      split
      · exact h
      · split
        · exact recordsHaveCancel_closeTunnel _ _ _ _ h
        · split
          · simp only
            split
            · exact recordsHaveCancel_closeTunnel _ _ _ _ h
            · exact h
          · exact h
    simp only [pumpLoop]
    split
    · exact ih _ hstep
    · exact hstep

/-- The registration of `handleFirebirdConnection` and everything the handler does after
it keep the records well formed: the record it stores has its cancel function set. -/
theorem recordsHaveCancel_handleFirebirdConnection (s s' : tunnelServer) (fbConn : Conn)
    (connID : String) (cancel : CancelFunc) (ready : Chan) (env : HandlerEnv)
    (effects : List Effect) (exited : Bool) (h : recordsHaveCancel s)
    (hrun : handleFirebirdConnection s fbConn connID cancel ready env =
      some (s', effects, exited)) : recordsHaveCancel s' := by
  have hstore : recordsHaveCancel
      { s with
        activeTunnels :=
          store s.activeTunnels connID
            { firebirdConn := some fbConn, cancel := some cancel, ready := some ready } } := by
    intro p hp
    rcases List.mem_cons.mp hp with h' | h'
    · rw [h']
      simp
    · exact h p (mem_delete _ _ _ h')
  unfold handleFirebirdConnection at hrun
  simp only at hrun
  split at hrun
  · cases hrun
    exact h
  · split at hrun
    · cases hrun
      exact recordsHaveCancel_closeTunnel _ _ _ _ hstore
    · split at hrun
      · cases hrun
      · split at hrun
        · cases hrun
          exact recordsHaveCancel_closeTunnel _ _ _ _
            (recordsHaveCancel_pumpLoop _ _ _ hstore)
        · cases hrun
          exact recordsHaveCancel_pumpLoop _ _ _ hstore
      · cases hrun
        exact recordsHaveCancel_closeTunnel _ _ _ _ hstore

/-! ## The frame helpers -/

theorem lookup_store_self {α : Type} (m : List (String × α)) (k : String) (v : α) :
    lookup (store m k v) k = some v := by
  simp [store, lookup]

/-! ## The handler's exit on a ready timeout -/

theorem delete_delete {α : Type} (m : List (String × α)) (k : String) :
    delete (delete m k) k = delete m k := by
  simp [delete, List.filter_filter]

theorem delete_store {α : Type} (m : List (String × α)) (k : String) (v : α) :
    delete (store m k v) k = delete m k := by
  rw [store, delete_cons_eq, delete_delete]

/-! ## Reachable server states -/

theorem agentDisconnectLoop_registry (pending m m' : List (String × tunnelInfo))
    (effects : List Effect) (h : agentDisconnectLoop pending m = some (m', effects)) :
    m' = m.filter (fun p => decide (p.1 ∉ pending.map Prod.fst)) := by
  induction pending generalizing m m' effects with
  | nil =>
    simp only [agentDisconnectLoop, Option.some.injEq, Prod.mk.injEq] at h
    simp [h.1]
  | cons q rest ih =>
    obtain ⟨k, t⟩ := q
    simp only [agentDisconnectLoop] at h
    split at h
    · cases h
    · split at h
      · cases h
      · rename_i m'' effects'' hloop
        simp only [Option.some.injEq, Prod.mk.injEq] at h
        rw [← h.1, ih _ _ _ hloop]
        simp only [delete, List.filter_filter, List.map_cons, List.mem_cons]
        apply List.filter_congr
        intro p _
        by_cases h1 : p.1 = k <;> by_cases h2 : p.1 ∈ rest.map Prod.fst <;> simp [h1, h2]

theorem agentDisconnectCleanup_result (s s' : tunnelServer) (effects : List Effect)
    (h : agentDisconnectCleanup s = some (s', effects)) :
    s'.agentStream = none ∧ s'.activeTunnels = [] := by
  unfold agentDisconnectCleanup at h
  split at h
  · cases h
  · rename_i m effects' hloop
    simp only [Option.some.injEq, Prod.mk.injEq] at h
    rw [← h.1]
    refine ⟨rfl, ?_⟩
    show m = []
    rw [agentDisconnectLoop_registry _ _ _ _ hloop, List.filter_eq_nil_iff]
    intro p hp
    simpa using List.mem_map_of_mem Prod.fst hp

theorem closeTunnel_agentStream (s : tunnelServer) (id reason : String) (e : GoError) :
    (closeTunnel s id reason e).1.agentStream = s.agentStream := by
  unfold closeTunnel
  cases lookup s.activeTunnels id <;> rfl

theorem closeTunnel_of_empty (s : tunnelServer) (id reason : String) (e : GoError)
    (h : s.activeTunnels = []) : (closeTunnel s id reason e).1 = s := by
  rw [closeTunnel_of_absent s id reason e (by rw [h]; rfl)]

theorem handleAgentFrame_agentStream (s : tunnelServer) (f : Frame) (io : FrameIO) :
    (handleAgentFrame s f io).1.agentStream = s.agentStream := by
  unfold handleAgentFrame
  simp only
  split
  · rfl
  · split
    · split
      · split <;> rfl
      · rfl
    · split
      · rfl
      · split
        · rfl
        · split
          · rfl
          · exact closeTunnel_agentStream _ _ _ _
    · exact closeTunnel_agentStream _ _ _ _
    · exact closeTunnel_agentStream _ _ _ _
    · rfl

theorem handleAgentFrame_of_empty (s : tunnelServer) (f : Frame) (io : FrameIO)
    (h : s.activeTunnels = []) : (handleAgentFrame s f io).1 = s := by
  rw [handleAgentFrame_of_absent s f io (by rw [h]; rfl)]

/-! ## The critical sections inside the whole functions -/

theorem ConnectControl_rejected (s : tunnelServer) (stream : ServerStream)
    (frames : List (Frame × FrameIO)) (final : RecvEnd)
    (hauth : authenticate s stream.incomingMD = .ok ())
    (hinst : installSession s stream = none) :
    ConnectControl s stream frames final =
      some (s, [], some { code := .AlreadyExists, msg := "agent already connected" }) := by
  unfold installSession at hinst
  split at hinst
  · rename_i st hst
    simp [ConnectControl, hauth, hst]
  · cases hinst

theorem ConnectControl_installed (s s1 : tunnelServer) (stream : ServerStream)
    (frames : List (Frame × FrameIO)) (final : RecvEnd)
    (hauth : authenticate s stream.incomingMD = .ok ())
    (hinst : installSession s stream = some s1) :
    ConnectControl s stream frames final =
      match agentDisconnectCleanup (recvLoop s1 frames).1 with
      | none => none
      | some (s2, effects) => some (s2, (recvLoop s1 frames).2 ++ effects, recvEndStatus final) := by
  unfold installSession at hinst
  split at hinst
  · cases hinst
  · rename_i hnone
    simp only [Option.some.injEq] at hinst
    subst hinst
    simp [ConnectControl, hauth, hnone]

theorem handleFirebirdConnection_unregistered (s : tunnelServer) (fbConn : Conn)
    (connID : String) (cancel : CancelFunc) (ready : Chan) (env : HandlerEnv)
    (hreg : registerTunnel s fbConn connID cancel ready = none) :
    handleFirebirdConnection s fbConn connID cancel ready env =
      some (s, [Effect.connClose fbConn], true) := by
  unfold registerTunnel at hreg
  split at hreg
  · rename_i hnone
    simp [handleFirebirdConnection, hnone]
  · cases hreg

/-- Without steps of other goroutines before the wait, `readyWaitWith` is the wait of the
sequential `handleFirebirdConnection`: the operands are the stored channel and the
installed session. -/
theorem readyWaitWith_nil (s : tunnelServer) (stream : ServerStream) (fbConn : Conn)
    (connID : String) (cancel : CancelFunc) (ready : Chan) (obs : WaitObs)
    (hs : s.agentStream = some stream) :
    readyWaitWith s fbConn connID cancel ready none [] obs =
      some ({ s with
              activeTunnels :=
                store s.activeTunnels connID
                  { firebirdConn := some fbConn, cancel := some cancel, ready := some ready } },
        [Effect.streamSend stream.id { Typ := .START_DATA_TUNNEL, ConnectionId := connID }],
        awaitReady (some ready) (some stream) obs) := by
  simp [readyWaitWith, registerTunnel, hs, sendFrameToAgent, runBetween]

/-- A TUNNEL_READY handled while the handler is blocked in the wait (the channel operand
was read before, the close happens during the wait) makes the ready case fire. -/
theorem readyWaitWith_ready_during_wait (s : tunnelServer) (stream : ServerStream)
    (fbConn : Conn) (connID : String) (cancel : CancelFunc) (ready : Chan)
    (hs : s.agentStream = some stream) :
    ∃ s' effects, readyWaitWith s fbConn connID cancel ready none []
        { readyClosed := true, tunnelCtxDone := false, agentCtxDone := false,
          prefer := WaitCase.ready } = some (s', effects, some WaitCase.ready) := by
  have hwait : awaitReady (some ready) (some stream)
      { readyClosed := true, tunnelCtxDone := false, agentCtxDone := false,
        prefer := WaitCase.ready } = some WaitCase.ready := by
    simp [awaitReady]
  rw [readyWaitWith_nil s stream fbConn connID cancel ready _ hs, hwait]
  exact ⟨_, _, rfl⟩

theorem pumpStep_reachable (s : tunnelServer) (connID : String) (o : PumpObs)
    (h : Reachable s) : Reachable (pumpStep s connID o).1 := by
  unfold pumpStep
  split
  · exact h
  · split
    · exact Reachable.close _ _ _ h
    · split
      · simp only
        split
        · exact Reachable.close _ _ _ h
        · exact h
      · exact h

theorem pumpLoop_reachable (connID : String) (obs : List PumpObs) (s : tunnelServer)
    (h : Reachable s) : Reachable (pumpLoop connID s obs).1 := by
  induction obs generalizing s with
  | nil => exact h
  | cons o rest ih =>
    simp only [pumpLoop]
    split
    · exact ih _ (pumpStep_reachable s connID o h)
    · exact pumpStep_reachable s connID o h

theorem recvLoop_reachable (frames : List (Frame × FrameIO)) (s : tunnelServer)
    (h : Reachable s) : Reachable (recvLoop s frames).1 := by
  induction frames generalizing s with
  | nil => exact h
  | cons p rest ih =>
    obtain ⟨f, io⟩ := p
    exact ih _ (Reachable.frame f io h)

/-- Every state in which a run of `handleFirebirdConnection` leaves the server is
reachable. -/
theorem handleFirebirdConnection_reachable (s s' : tunnelServer) (fbConn : Conn)
    (connID : String) (cancel : CancelFunc) (ready : Chan) (env : HandlerEnv)
    (effects : List Effect) (exited : Bool) (h : Reachable s)
    (hrun : handleFirebirdConnection s fbConn connID cancel ready env =
      some (s', effects, exited)) : Reachable s' := by
  cases hreg : registerTunnel s fbConn connID cancel ready with
  | none =>
    rw [handleFirebirdConnection_unregistered s fbConn connID cancel ready env hreg] at hrun
    cases hrun
    exact h
  | some s1 =>
    have h1 : Reachable s1 := Reachable.register fbConn connID cancel ready h hreg
    unfold registerTunnel at hreg
    split at hreg
    · cases hreg
    · rename_i stream hstream
      simp only [Option.some.injEq] at hreg
      subst hreg
      unfold handleFirebirdConnection at hrun
      simp only [hstream] at hrun h1
      split at hrun
      · cases hrun
        exact Reachable.close _ _ _ h1
      · split at hrun
        · cases hrun
        · split at hrun
          · cases hrun
            exact Reachable.close _ _ _ (pumpLoop_reachable _ _ _ h1)
          · cases hrun
            exact pumpLoop_reachable _ _ _ h1
        · cases hrun
          exact Reachable.close _ _ _ h1

/-- Every state in which a run of `ConnectControl` leaves the server is reachable. -/
theorem ConnectControl_reachable (s s' : tunnelServer) (stream : ServerStream)
    (frames : List (Frame × FrameIO)) (final : RecvEnd) (effects : List Effect)
    (ret : Option Status) (h : Reachable s)
    (hrun : ConnectControl s stream frames final = some (s', effects, ret)) :
    Reachable s' := by
  unfold ConnectControl at hrun
  split at hrun
  · cases hrun
    exact h
  · split at hrun
    · cases hrun
      exact h
    · rename_i hnone
      simp only at hrun
      split at hrun
      · cases hrun
      · rename_i s2 effects2 hclean
        cases hrun
        refine Reachable.disconnect (recvLoop_reachable frames _ ?_) hclean
        exact Reachable.install stream h (by simp [installSession, hnone])

/-! ## Steps and the functions they refine -/

theorem stepEffects_map_append (l : List Effect) (rest : List Step) :
    stepEffects (l.map Step.effect ++ rest) = l ++ stepEffects rest := by
  induction l with
  | nil => rfl
  | cons e l ih => simp [stepEffects, ih]

theorem stepEffects_map (l : List Effect) : stepEffects (l.map Step.effect) = l := by
  have := stepEffects_map_append l []
  simpa [stepEffects] using this

theorem replayDeletes_map_append {α : Type} (m : List (String × α)) (l : List Effect)
    (rest : List Step) : replayDeletes m (l.map Step.effect ++ rest) = replayDeletes m rest := by
  induction l with
  | nil => rfl
  | cons e l ih => simp [replayDeletes, ih]

theorem replayDeletes_map {α : Type} (m : List (String × α)) (l : List Effect) :
    replayDeletes m (l.map Step.effect) = m := by
  have := replayDeletes_map_append m l []
  simpa [replayDeletes] using this

/-- The steps of `closeTunnel` carry the effects of `closeTunnel`, in the same order, and
their deletes give its registry. -/
theorem closeTunnelSteps_refines (s : tunnelServer) (connID reason : String)
    (sendErr : GoError) :
    stepEffects (closeTunnelSteps s connID reason sendErr) =
        (closeTunnel s connID reason sendErr).2 ∧
    replayDeletes s.activeTunnels (closeTunnelSteps s connID reason sendErr) =
        (closeTunnel s connID reason sendErr).1.activeTunnels := by
  unfold closeTunnelSteps closeTunnel
  cases lookup s.activeTunnels connID with
  | none => exact ⟨rfl, rfl⟩
  | some tunnel =>
    simp only [stepEffects, replayDeletes, ← List.map_append]
    exact ⟨stepEffects_map _, replayDeletes_map _ _⟩

/-- The steps of `closeLocalTunnel` carry its effects and its registry. -/
theorem closeLocalTunnelSteps_refines (a : tunnelAgent) (connID reason : String)
    (sendErr : GoError) (now : Int) :
    stepEffects (closeLocalTunnelSteps a connID reason sendErr now) =
        (closeLocalTunnel a connID reason sendErr now).2 ∧
    replayDeletes a.activeConns (closeLocalTunnelSteps a connID reason sendErr now) =
        (closeLocalTunnel a connID reason sendErr now).1.activeConns := by
  unfold closeLocalTunnelSteps closeLocalTunnel
  cases lookup a.activeConns connID with
  | none => exact ⟨rfl, rfl⟩
  | some tunnel =>
    simp only [stepEffects, replayDeletes, ← List.map_append]
    exact ⟨stepEffects_map _, replayDeletes_map _ _⟩

/-- The steps of the agent-disconnect cleanup carry the effects of
`agentDisconnectLoop`, in the same order, and their deletes give its registry. -/
theorem agentDisconnectSteps_refines (pending m : List (String × tunnelInfo)) :
    agentDisconnectLoop pending m =
      (agentDisconnectSteps pending).map
        (fun steps => (replayDeletes m steps, stepEffects steps)) := by
  induction pending generalizing m with
  | nil => rfl
  | cons q rest ih =>
    obtain ⟨k, t⟩ := q
    cases hc : t.cancel with
    | none => simp [agentDisconnectLoop, agentDisconnectSteps, hc]
    | some c =>
      cases hsteps : agentDisconnectSteps rest with
      | none => simp [agentDisconnectLoop, agentDisconnectSteps, hc, ih, hsteps]
      | some steps =>
        simp only [agentDisconnectLoop, agentDisconnectSteps, hc, ih, hsteps, Option.map_some',
          replayDeletes, stepEffects, replayDeletes_map_append, stepEffects_map_append]
        rfl

theorem occursBefore_cons_self (a b : Step) (rest : List Step) :
    occursBefore a b (a :: rest) = true := by
  simp [occursBefore]

theorem occursBefore_cons_of_ne (a b x : Step) (rest : List Step) (hb : x ≠ b)
    (h : occursBefore a b rest = true) : occursBefore a b (x :: rest) = true := by
  by_cases ha : x = a
  · simp [occursBefore, ha]
  · simp [occursBefore, ha, hb, h]

theorem occursBefore_append_of_not_mem (a b : Step) (pre rest : List Step)
    (hpre : b ∉ pre) (h : occursBefore a b rest = true) :
    occursBefore a b (pre ++ rest) = true := by
  induction pre with
  | nil => exact h
  | cons x pre ih =>
    have hx : x ≠ b := fun hxb => hpre (by rw [hxb]; exact List.mem_cons_self _ _)
    exact occursBefore_cons_of_ne a b x _ hx
      (ih (fun hmem => hpre (List.mem_cons_of_mem _ hmem)))

theorem registryDelete_not_mem_map_effect (connID : String) (l : List Effect) :
    Step.registryDelete connID ∉ l.map Step.effect := by
  simp

/-- In the agent-disconnect cleanup the cancel and the socket close of a registered
tunnel occur before the delete of its id. -/
theorem agentDisconnectSteps_order (m : List (String × tunnelInfo)) (steps : List Step)
    (connID : String) (tunnel : tunnelInfo)
    (hsteps : agentDisconnectSteps m = some steps)
    (hreg : lookup m connID = some tunnel) :
    (∀ c, tunnel.cancel = some c →
      occursBefore (Step.effect (.cancel c)) (Step.registryDelete connID) steps = true) ∧
    (∀ k, tunnel.firebirdConn = some k →
      occursBefore (Step.effect (.connClose k)) (Step.registryDelete connID) steps = true) := by
  induction m generalizing steps with
  | nil => simp [lookup] at hreg
  | cons q rest ih =>
    obtain ⟨k', t⟩ := q
    simp only [agentDisconnectSteps] at hsteps
    split at hsteps
    · cases hsteps
    · rename_i c' hc'
      split at hsteps
      · cases hsteps
      · rename_i steps' hsteps'
        simp only [Option.some.injEq] at hsteps
        subst hsteps
        by_cases hk : k' = connID
        · have ht : t = tunnel := by simpa [lookup, hk] using hreg
          subst ht
          constructor
          · intro c hc
            have : c' = c := by rw [hc'] at hc; exact Option.some.inj hc
            subst this
            exact occursBefore_cons_self _ _ _
          · intro k hk'
            apply occursBefore_cons_of_ne _ _ _ _ (by simp)
            simp only [hk', connCloseEffect, List.map_cons, List.map_nil, List.singleton_append]
            exact occursBefore_cons_self _ _ _
        · have hrest : lookup rest connID = some tunnel := by simpa [lookup, hk] using hreg
          obtain ⟨ih1, ih2⟩ := ih steps' hsteps' hrest
          have hne : Step.registryDelete k' ≠ Step.registryDelete connID := by
            intro h
            injection h with h'
            exact hk h'
          have lift : ∀ a, occursBefore a (Step.registryDelete connID) steps' = true →
              occursBefore a (Step.registryDelete connID)
                (Step.effect (.cancel c') ::
                  ((connCloseEffect t.firebirdConn).map Step.effect ++
                    Step.registryDelete k' :: steps')) = true := by
            intro a ha
            apply occursBefore_cons_of_ne _ _ _ _ (by simp)
            apply occursBefore_append_of_not_mem _ _ _ _
              (registryDelete_not_mem_map_effect _ _)
            exact occursBefore_cons_of_ne _ _ _ _ hne ha
          exact ⟨fun c hc => lift _ (ih1 c hc), fun k hk' => lift _ (ih2 k hk')⟩

/-- A run of `startLocalFirebirdTunnel` that has dialled the backend and has returned
ends with the socket close, the cancel and the delete, in this order, and deletes
nothing before. -/
theorem startLocalFirebirdTunnel_exit (a a' : tunnelAgent) (connID : String)
    (cancel : CancelFunc) (env : LocalTunnelEnv) (fbConn : Conn) (steps : List Step)
    (hdial : env.dial = .connected fbConn)
    (hrun : startLocalFirebirdTunnel a connID cancel env = (a', steps, true)) :
    ∃ pre, steps = pre ++ [Step.effect (.connClose fbConn), Step.effect (.cancel cancel),
        Step.registryDelete connID] ∧
      Step.registryDelete connID ∉ pre := by
  unfold startLocalFirebirdTunnel at hrun
  simp only [hdial] at hrun
  split at hrun
  · simp only [Prod.mk.injEq, and_true] at hrun
    exact ⟨[], by rw [← hrun.2]; rfl, by simp⟩
  · split at hrun
    · simp only [Prod.mk.injEq, and_true] at hrun
      obtain ⟨-, hsteps⟩ := hrun
      subst hsteps
      exact ⟨_, (List.cons_append _ _ _).symm, by simp⟩
    · split at hrun
      · simp only [Prod.mk.injEq, and_true] at hrun
        obtain ⟨-, hsteps⟩ := hrun
        subst hsteps
        exact ⟨_, (List.cons_append _ _ _).symm, by simp⟩
      · simp at hrun

/-! ## The agent's cleanup -/

theorem closeLocalTunnel_registry (a : tunnelAgent) (connID reason : String) (e : GoError)
    (now : Int) :
    (closeLocalTunnel a connID reason e now).1 =
      { a with activeConns := delete a.activeConns connID } := by
  unfold closeLocalTunnel
  cases h : lookup a.activeConns connID with
  | none =>
    have hsame : delete a.activeConns connID = a.activeConns := by
      unfold delete
      rw [List.filter_eq_self]
      intro p hp
      by_cases hk : p.1 = connID
      · exfalso
        have hmem : ∀ (m : List (String × localTunnelInfo)), p ∈ m →
            lookup m connID ≠ none := by
          intro m
          induction m with
          | nil => intro hnil; cases hnil
          | cons q rest ih =>
            intro hq
            obtain ⟨k', v'⟩ := q
            by_cases hk' : k' = connID
            · simp [lookup, hk']
            · rcases List.mem_cons.mp hq with hq' | hq'
              · exact absurd (by rw [hq'] at hk; exact hk) hk'
              · simpa [lookup, hk'] using ih hq'
        exact hmem _ hp h
      · simp [hk]
    simp [hsame]
  | some t => rfl

theorem cleanupLoop_registry (sendErr : String → GoError) (now : String → Int)
    (ids : List String) (a : tunnelAgent) :
    (cleanupLoop sendErr now a ids).1 =
      { a with activeConns := a.activeConns.filter (fun p => decide (p.1 ∉ ids)) } := by
  induction ids generalizing a with
  | nil => simp [cleanupLoop]
  | cons k rest ih =>
    simp only [cleanupLoop, ih, closeLocalTunnel_registry, delete, List.filter_filter,
      List.mem_cons]
    congr 1
    apply List.filter_congr
    intro p _
    by_cases h1 : p.1 = k <;> by_cases h2 : p.1 ∈ rest <;> simp [h1, h2]

/-- What `cleanupAgentState` does leave as the claim says: the registry is empty and the
stored stream and connection handles are cleared. -/
theorem cleanupAgentState_clears (a : tunnelAgent) (sendErr : String → GoError)
    (now : String → Int) :
    (cleanupAgentState a sendErr now).1 =
      { a with conn := none, controlStream := none, activeConns := [] } := by
  have hempty : a.activeConns.filter
      (fun p => decide (p.1 ∉ a.activeConns.map Prod.fst)) = [] := by
    rw [List.filter_eq_nil_iff]
    intro p hp
    simpa using List.mem_map_of_mem Prod.fst hp
  unfold cleanupAgentState
  simp only [cleanupLoop_registry]
  rw [hempty]

/-- With the control stream still stored, `cleanupAgentState` calls `Send` for the first
registered tunnel: the effects of the cleanup contain a send. -/
theorem cleanupAgentState_sends (a : tunnelAgent) (stream : Nat) (connID : String)
    (info : localTunnelInfo) (rest : List (String × localTunnelInfo))
    (sendErr : String → GoError) (now : String → Int)
    (hstream : a.controlStream = some stream)
    (hreg : a.activeConns = (connID, info) :: rest) :
    Effect.streamSend stream
        (NewCloseFrame connID "Agent disconnecting or connection lost" (now connID)) ∈
      (cleanupAgentState a sendErr now).2 := by
  have hlookup : lookup a.activeConns connID = some info := by simp [hreg, lookup]
  simp only [cleanupAgentState, hreg, List.map_cons, cleanupLoop, List.mem_append]
  left
  simp [closeLocalTunnel, hlookup, sendFrameToServer, hstream]

/-! ## The claims -/

/-- C1. Client-to-backend byte transparency. Let the pump of `handleFirebirdConnection`
run over iterations `obs` whose reads and sends all succeed, with a session installed;
let the agent hold the tunnel with backend socket `k`, and let `arrivals` be the frames
the stream delivers (those the pump sent, in order) with backend writes that succeed.
Then the pump emits exactly one DATA frame per non-empty chunk, in read order, carrying
the chunk and the tunnel id; the agent writes each payload to `k` in arrival order; after
any prefix of the frames the bytes written to `k` are a prefix of the concatenated client
bytes, and after all of them they are equal to it. -/
theorem client_to_backend_transparent (s : tunnelServer) (stream : ServerStream)
    (connID : String) (obs : List PumpObs) (a : tunnelAgent) (info : localTunnelInfo)
    (k : Conn) (arrivals : List (Frame × ServerFrameIO))
    (hs : s.agentStream = some stream)
    (hobs : ∀ o ∈ obs, o.ctxDone = false ∧ o.read.err = none ∧ o.sendErr = none)
    (ha : lookup a.activeConns connID = some info) (hk : info.fbConn = some k)
    (harr : arrivals.map Prod.fst = sentOn stream.id (pumpLoop connID s obs).2.1)
    (hw : ∀ p ∈ arrivals, p.2.writeErr = none) :
    (pumpLoop connID s obs).2.1 =
      (dataFrames connID (obs.map (fun o => o.read.data))).map
        (fun f => Effect.streamSend stream.id f) ∧
    (∀ n, (handleServerFrames a (arrivals.take n)).2 =
      (arrivals.take n).map (fun p => Effect.connWrite k p.1.Payload)) ∧
    (∀ n, writtenTo k (handleServerFrames a (arrivals.take n)).2 <+:
      (obs.map (fun o => o.read.data)).flatten) ∧
    writtenTo k (handleServerFrames a arrivals).2 = (obs.map (fun o => o.read.data)).flatten := by
  have hpump := pumpLoop_successful connID s stream obs hs hobs
  have hframes : arrivals.map Prod.fst = dataFrames connID (obs.map (fun o => o.read.data)) := by
    rw [harr, hpump, sentOn_map_streamSend]
  have hdata : ∀ p ∈ arrivals,
      p.1.Typ = .DATA ∧ p.1.ConnectionId = connID ∧ p.2.writeErr = none := by
    intro p hp
    have hmem : p.1 ∈ dataFrames connID (obs.map (fun o => o.read.data)) := by
      rw [← hframes]
      exact List.mem_map_of_mem Prod.fst hp
    obtain ⟨h1, h2⟩ := mem_dataFrames _ _ _ hmem
    exact ⟨h1, h2, hw p hp⟩
  have hall := handleServerFrames_data a connID info k arrivals ha hk hdata
  have htake : ∀ n, handleServerFrames a (arrivals.take n) =
      (a, (arrivals.take n).map (fun p => Effect.connWrite k p.1.Payload)) := fun n =>
    handleServerFrames_data a connID info k (arrivals.take n) ha hk
      (fun p hp => hdata p (List.mem_of_mem_take hp))
  have hpay : (arrivals.map (fun p => p.1.Payload)).flatten =
      (obs.map (fun o => o.read.data)).flatten := by
    have : arrivals.map (fun p => p.1.Payload) =
        (arrivals.map Prod.fst).map (fun f => f.Payload) := by simp
    rw [this, hframes, flatten_payload_dataFrames]
  refine ⟨by rw [hpump], fun n => by rw [htake n], ?_, ?_⟩
  · intro n
    rw [htake n, writtenTo_map_connWrite, ← hpay, List.map_take]
    exact flatten_take_prefix _ n
  · rw [hall, writtenTo_map_connWrite, hpay]

/-- C1 at a concrete input: the client delivers "ab", an empty read and "c" on tunnel
"t1"; two DATA frames cross the stream and the backend socket 40 receives "abc". -/
theorem client_to_backend_transparent_witness :
    (pumpLoop "t1"
      { agentStream := some { id := 1, incomingMD := none },
        activeTunnels := [("t1", { firebirdConn := some 4, cancel := some 5, ready := none })],
        authToken := "secret" }
      [{ ctxDone := false, read := { data := [97, 98], err := none }, sendErr := none,
         closeSendErr := none },
       { ctxDone := false, read := { data := [], err := none }, sendErr := none,
         closeSendErr := none },
       { ctxDone := false, read := { data := [99], err := none }, sendErr := none,
         closeSendErr := none }]).2.1 =
      [Effect.streamSend 1 { Typ := .DATA, ConnectionId := "t1", Payload := [97, 98] },
       Effect.streamSend 1 { Typ := .DATA, ConnectionId := "t1", Payload := [99] }] ∧
    writtenTo 40
      (handleServerFrames
        { authToken := "secret", conn := some 2, controlStream := some 3,
          activeConns := [("t1", { fbConn := some 40, cancel := some 41 })] }
        [({ Typ := .DATA, ConnectionId := "t1", Payload := [97, 98] },
            { writeErr := none, sendErr := none, now := 0 }),
         ({ Typ := .DATA, ConnectionId := "t1", Payload := [99] },
            { writeErr := none, sendErr := none, now := 0 })]).2 = [97, 98, 99] :=
  have h := client_to_backend_transparent
    { agentStream := some { id := 1, incomingMD := none },
      activeTunnels := [("t1", { firebirdConn := some 4, cancel := some 5, ready := none })],
      authToken := "secret" }
    { id := 1, incomingMD := none } "t1"
    [{ ctxDone := false, read := { data := [97, 98], err := none }, sendErr := none,
       closeSendErr := none },
     { ctxDone := false, read := { data := [], err := none }, sendErr := none,
       closeSendErr := none },
     { ctxDone := false, read := { data := [99], err := none }, sendErr := none,
       closeSendErr := none }]
    { authToken := "secret", conn := some 2, controlStream := some 3,
      activeConns := [("t1", { fbConn := some 40, cancel := some 41 })] }
    { fbConn := some 40, cancel := some 41 } 40
    [({ Typ := .DATA, ConnectionId := "t1", Payload := [97, 98] },
        { writeErr := none, sendErr := none, now := 0 }),
     ({ Typ := .DATA, ConnectionId := "t1", Payload := [99] },
        { writeErr := none, sendErr := none, now := 0 })]
    rfl (by decide) (by decide) rfl (by decide) (by decide)
  ⟨h.1, h.2.2.2⟩

/-- C2. Close is idempotent on both sides: a second `closeTunnel` (resp.
`closeLocalTunnel`) of the same id, with any reason and any outcome of its sends, leaves
the struct as the first call left it and performs no effect at all (no cancel, no socket
close, no frame sent); and closing an id that is not registered is a no-op. -/
theorem close_is_idempotent :
    (∀ (s : tunnelServer) (id r1 r2 : String) (e1 e2 : GoError),
      closeTunnel (closeTunnel s id r1 e1).1 id r2 e2 = ((closeTunnel s id r1 e1).1, [])) ∧
    (∀ (a : tunnelAgent) (id r1 r2 : String) (e1 e2 : GoError) (n1 n2 : Int),
      closeLocalTunnel (closeLocalTunnel a id r1 e1 n1).1 id r2 e2 n2 =
        ((closeLocalTunnel a id r1 e1 n1).1, [])) ∧
    (∀ (s : tunnelServer) (id r : String) (e : GoError),
      lookup s.activeTunnels id = none → closeTunnel s id r e = (s, [])) ∧
    (∀ (a : tunnelAgent) (id r : String) (e : GoError) (n : Int),
      lookup a.activeConns id = none → closeLocalTunnel a id r e n = (a, [])) := by
  refine ⟨?_, ?_, ?_, ?_⟩
  · intro s id r1 r2 e1 e2
    exact closeTunnel_of_absent _ _ _ _ (closeTunnel_absent_after s id r1 e1)
  · intro a id r1 r2 e1 e2 n1 n2
    exact closeLocalTunnel_of_absent _ _ _ _ _ (closeLocalTunnel_absent_after a id r1 e1 n1)
  · intro s id r e h
    exact closeTunnel_of_absent s id r e h
  · intro a id r e n h
    exact closeLocalTunnel_of_absent a id r e n h

/-- C2 at a concrete input: closing the unregistered id "t9" on a server holding "t1" and
on an agent holding "t1", and closing "t1" twice on that server. -/
theorem close_is_idempotent_witness :
    (lookup [("t1", ({ firebirdConn := some 4, cancel := some 5, ready := some 6 } : tunnelInfo))]
        "t9" = none ∧
      closeTunnel
        { agentStream := some { id := 1, incomingMD := none },
          activeTunnels := [("t1", { firebirdConn := some 4, cancel := some 5, ready := some 6 })],
          authToken := "secret" } "t9" "Handler exit" none =
        ({ agentStream := some { id := 1, incomingMD := none },
           activeTunnels := [("t1", { firebirdConn := some 4, cancel := some 5, ready := some 6 })],
           authToken := "secret" }, [])) ∧
    (lookup [("t1", ({ fbConn := some 4, cancel := some 5 } : localTunnelInfo))] "t9" = none ∧
      closeLocalTunnel
        { authToken := "secret", conn := some 2, controlStream := some 1,
          activeConns := [("t1", { fbConn := some 4, cancel := some 5 })] }
        "t9" "Closed by server" none 0 =
        ({ authToken := "secret", conn := some 2, controlStream := some 1,
           activeConns := [("t1", { fbConn := some 4, cancel := some 5 })] }, [])) :=
  ⟨⟨by decide, close_is_idempotent.2.2.1 _ "t9" "Handler exit" none (by decide)⟩,
   ⟨by decide, close_is_idempotent.2.2.2 _ "t9" "Closed by server" none 0 (by decide)⟩⟩

/-- C3. No write after close: in the state left by `closeTunnel` of the id of frame `f`,
and after any further frames `later` have been handled (none of which can register an
id), handling `f`, whatever its type, performs no socket write; the same on the agent
with `closeLocalTunnel` and `handleServerFrame`. More generally, in every state in which
the id of `f` is not registered, handling `f` performs no socket write on either side. -/
theorem no_write_after_close :
    (∀ (s : tunnelServer) (f : Frame) (reason : String) (e : GoError)
        (later : List (Frame × FrameIO)) (io : FrameIO),
      (handleAgentFrame (recvLoop (closeTunnel s f.ConnectionId reason e).1 later).1 f io).2.filter
        Effect.isWrite = []) ∧
    (∀ (a : tunnelAgent) (f : Frame) (reason : String) (e : GoError) (now : Int)
        (later : List (Frame × ServerFrameIO)) (io : ServerFrameIO),
      (handleServerFrame
        (handleServerFrames (closeLocalTunnel a f.ConnectionId reason e now).1 later).1 f io).2.filter
        Effect.isWrite = []) ∧
    (∀ (s : tunnelServer) (f : Frame) (io : FrameIO),
      lookup s.activeTunnels f.ConnectionId = none →
      (handleAgentFrame s f io).2.filter Effect.isWrite = []) ∧
    (∀ (a : tunnelAgent) (f : Frame) (io : ServerFrameIO),
      lookup a.activeConns f.ConnectionId = none →
      (handleServerFrame a f io).2.filter Effect.isWrite = []) := by
  refine ⟨?_, ?_, ?_, ?_⟩
  · intro s f reason e later io
    rw [handleAgentFrame_of_absent _ _ _
      (recvLoop_keeps_absent later _ _ (closeTunnel_absent_after s f.ConnectionId reason e))]
    rfl
  · intro a f reason e now later io
    exact handleServerFrame_no_write_of_absent _ _ _
      (handleServerFrames_keeps_absent later _ _
        (closeLocalTunnel_absent_after a f.ConnectionId reason e now))
  · intro s f io h
    rw [handleAgentFrame_of_absent s f io h]
    rfl
  · intro a f io h
    exact handleServerFrame_no_write_of_absent a f io h

/-- C3 at a concrete input: a DATA frame for "t9" reaches a server and an agent that hold
only "t1"; the agent answers with a CLOSE_TUNNEL frame and neither side writes. -/
theorem no_write_after_close_witness :
    (handleAgentFrame
      { agentStream := some { id := 1, incomingMD := none },
        activeTunnels := [("t1", { firebirdConn := some 4, cancel := some 5, ready := none })],
        authToken := "secret" }
      { Typ := .DATA, ConnectionId := "t9", Payload := [1] }
      { writeErr := none, sendErr := none }).2.filter Effect.isWrite = [] ∧
    (handleServerFrame
      { authToken := "secret", conn := some 2, controlStream := some 3,
        activeConns := [("t1", { fbConn := some 40, cancel := some 41 })] }
      { Typ := .DATA, ConnectionId := "t9", Payload := [1] }
      { writeErr := none, sendErr := none, now := 0 }).2.filter Effect.isWrite = [] ∧
    (handleServerFrame
      { authToken := "secret", conn := some 2, controlStream := some 3,
        activeConns := [("t1", { fbConn := some 40, cancel := some 41 })] }
      { Typ := .DATA, ConnectionId := "t9", Payload := [1] }
      { writeErr := none, sendErr := none, now := 0 }).2 =
      [Effect.streamSend 3 (NewCloseFrame "t9" "Tunnel not found or already closed" 0)] :=
  ⟨no_write_after_close.2.2.1 _ { Typ := .DATA, ConnectionId := "t9", Payload := [1] } _
      (by decide),
   no_write_after_close.2.2.2 _ { Typ := .DATA, ConnectionId := "t9", Payload := [1] } _
      (by decide),
   by decide⟩

/-- C4. Agent-loss teardown: from any state whose registered records carry a cancel
function (as every record built by `handleFirebirdConnection` does), the exit cleanup of
`ConnectControl` returns, and afterwards the session is absent, the registry is empty,
every tunnel that was registered has had its context cancelled and its client socket
closed, and the cleanup has sent no frame on any stream. -/
theorem agent_loss_teardown (s : tunnelServer)
    (hwf : ∀ p ∈ s.activeTunnels, p.2.cancel ≠ none) :
    ∃ s' effects, agentDisconnectCleanup s = some (s', effects) ∧
      s'.agentStream = none ∧ s'.activeTunnels = [] ∧
      (∀ id tunnel, (id, tunnel) ∈ s.activeTunnels →
        (∀ c, tunnel.cancel = some c → Effect.cancel c ∈ effects) ∧
        (∀ k, tunnel.firebirdConn = some k → Effect.connClose k ∈ effects)) ∧
      effects.filter Effect.isSend = [] := by
  refine ⟨{ s with agentStream := none, activeTunnels := [] }, teardownEffects s.activeTunnels,
    ?_, rfl, rfl, ?_, teardownEffects_no_send _⟩
  · have hempty : s.activeTunnels.filter
        (fun p => decide (p.1 ∉ s.activeTunnels.map Prod.fst)) = [] := by
      rw [List.filter_eq_nil_iff]
      intro p hp
      simpa using List.mem_map_of_mem Prod.fst hp
    unfold agentDisconnectCleanup
    rw [agentDisconnectLoop_eq _ _ hwf, hempty]
  · intro id tunnel hmem
    exact ⟨fun c hc => teardownEffects_cancel _ id tunnel c hmem hc,
      fun k hk => teardownEffects_connClose _ id tunnel k hmem hk⟩

/-- C4 at a concrete input: a session with two registered tunnels. -/
theorem agent_loss_teardown_witness :
    ∃ s' effects,
      agentDisconnectCleanup
        { agentStream := some { id := 1, incomingMD := none },
          activeTunnels :=
            [("t1", { firebirdConn := some 4, cancel := some 5, ready := some 6 }),
             ("t2", { firebirdConn := some 7, cancel := some 8, ready := none })],
          authToken := "secret" } = some (s', effects) ∧
      s'.agentStream = none ∧ s'.activeTunnels = [] ∧
      (∀ id tunnel, (id, tunnel) ∈
          [("t1", ({ firebirdConn := some 4, cancel := some 5, ready := some 6 } : tunnelInfo)),
           ("t2", { firebirdConn := some 7, cancel := some 8, ready := none })] →
        (∀ c, tunnel.cancel = some c → Effect.cancel c ∈ effects) ∧
        (∀ k, tunnel.firebirdConn = some k → Effect.connClose k ∈ effects)) ∧
      effects.filter Effect.isSend = [] :=
  agent_loss_teardown
    { agentStream := some { id := 1, incomingMD := none },
      activeTunnels :=
        [("t1", { firebirdConn := some 4, cancel := some 5, ready := some 6 }),
         ("t2", { firebirdConn := some 7, cancel := some 8, ready := none })],
      authToken := "secret" } (by decide)

/-- C5. Second agent rejected without perturbing the first: with a session installed, a
`ConnectControl` from a stream that passes `authenticate` returns `AlreadyExists`, leaves
the struct (session handle and registry) as it was and performs no effect: nothing is
cancelled, no socket is closed, the exit cleanup does not run. -/
theorem second_agent_rejected (s : tunnelServer) (first stream : ServerStream)
    (frames : List (Frame × FrameIO)) (final : RecvEnd)
    (hinstalled : s.agentStream = some first)
    (hauth : authenticate s stream.incomingMD = .ok ()) :
    ConnectControl s stream frames final =
      some (s, [], some { code := .AlreadyExists, msg := "agent already connected" }) := by
  simp [ConnectControl, hauth, hinstalled]

/-- C5 at a concrete input: agent 1 holds the session and one tunnel, stream 2 presents
the right token. -/
theorem second_agent_rejected_witness :
    ConnectControl
      { agentStream := some { id := 1, incomingMD := none },
        activeTunnels := [("t1", { firebirdConn := some 4, cancel := some 5, ready := some 6 })],
        authToken := "secret" }
      { id := 2, incomingMD := some [("authorization", ["Bearer secret"])] }
      [({ Typ := .CLOSE_TUNNEL, ConnectionId := "t1" }, { writeErr := none, sendErr := none })]
      RecvEnd.eof =
    some ({ agentStream := some { id := 1, incomingMD := none },
            activeTunnels := [("t1", { firebirdConn := some 4, cancel := some 5, ready := some 6 })],
            authToken := "secret" }, [],
          some { code := .AlreadyExists, msg := "agent already connected" }) :=
  second_agent_rejected _ { id := 1, incomingMD := none } _ _ _ rfl (by rfl)

/-- C6, the claim as stated fails: with the configured token "Bearer x", the bare token
(the metadata value equal to the configured token) is rejected as an invalid token,
because the value loses its leading "Bearer " before the comparison. -/
theorem bare_token_with_bearer_prefix_rejected :
    ("Bearer x" : String) ≠ "" ∧
    authenticate (newTunnelServer "Bearer x") (some [("authorization", ["Bearer x"])]) =
      .error { code := .Unauthenticated, msg := "invalid token" } :=
  ⟨by decide, rfl⟩

/-- C6, amended. For a non-empty configured token `t` and first authorization value `v`,
`authenticate` succeeds if and only if `v` is "Bearer " followed by `t`, or `v` is `t`
itself and `t` is not a "Bearer " followed by at least one more character; every other
value, absent metadata and an absent authorization key fail with `Unauthenticated`. -/
theorem token_acceptance (s : tunnelServer) (md : MD) (v : String) (others : List String)
    (ht : s.authToken ≠ "") (hv : MD.Get md "authorization" = v :: others) :
    (authenticate s (some md) = .ok () ↔
      (v = s.authToken ∧ hasBearerPrefix s.authToken = false) ∨ v = "Bearer " ++ s.authToken) ∧
    (authenticate s (some md) = .ok () ∨
      ∃ msg, authenticate s (some md) = .error { code := .Unauthenticated, msg := msg }) ∧
    (∃ msg, authenticate s none = .error { code := .Unauthenticated, msg := msg }) ∧
    (∀ md' : MD, MD.Get md' "authorization" = [] →
      ∃ msg, authenticate s (some md') = .error { code := .Unauthenticated, msg := msg }) := by
  have hok : authenticate s (some md) = .ok () ↔ bearerToken v = s.authToken := by
    by_cases h : bearerToken v = s.authToken <;> simp [authenticate, hv, h]
  refine ⟨?_, ?_, ⟨_, rfl⟩, ?_⟩
  · rw [hok]
    constructor
    · intro h
      cases hp : hasBearerPrefix v with
      | true =>
        right
        have := eq_append_of_bearerToken v hp
        rwa [h] at this
      | false =>
        left
        have hv' : v = s.authToken := by simpa [bearerToken, hp] using h
        exact ⟨hv', hv' ▸ hp⟩
    · rintro (⟨h, hp⟩ | h)
      · subst h
        simp [bearerToken, hp]
      · subst h
        exact bearerToken_append _ ht
  · by_cases h : bearerToken v = s.authToken
    · exact Or.inl (hok.mpr h)
    · exact Or.inr ⟨"invalid token", by simp [authenticate, hv, h]⟩
  · intro md' hmd'
    exact ⟨"authorization token is not provided", by simp [authenticate, hmd']⟩

/-- C6 amended, at a concrete input: token "secret", authorization "Bearer secret". -/
theorem token_acceptance_witness :
    (authenticate (newTunnelServer "secret") (some [("authorization", ["Bearer secret"])]) =
        .ok () ↔
      (("Bearer secret" : String) = (newTunnelServer "secret").authToken ∧
          hasBearerPrefix (newTunnelServer "secret").authToken = false) ∨
        ("Bearer secret" : String) = "Bearer " ++ (newTunnelServer "secret").authToken) ∧
    (authenticate (newTunnelServer "secret") (some [("authorization", ["Bearer secret"])]) =
        .ok () ∨
      ∃ msg, authenticate (newTunnelServer "secret")
        (some [("authorization", ["Bearer secret"])]) =
          .error { code := .Unauthenticated, msg := msg }) ∧
    (∃ msg, authenticate (newTunnelServer "secret") none =
      .error { code := .Unauthenticated, msg := msg }) ∧
    (∀ md' : MD, MD.Get md' "authorization" = [] →
      ∃ msg, authenticate (newTunnelServer "secret") (some md') =
        .error { code := .Unauthenticated, msg := msg }) :=
  token_acceptance (newTunnelServer "secret") [("authorization", ["Bearer secret"])]
    "Bearer secret" [] (by decide) rfl

/-- C7. Ready fires at most once: starting from a registry whose records hold pairwise
distinct ready channels (each is a fresh `make`), over any sequence of frames handled by
`handleAgentFrame` every channel is closed at most once. The first TUNNEL_READY for a
registered, still-waiting tunnel closes its channel and clears the field; a later
TUNNEL_READY for the same id, after any frames in between, and a TUNNEL_READY for an
unregistered id change no state and close nothing. -/
theorem ready_fires_at_most_once (s : tunnelServer) (hfresh : (readyChans s).Nodup) :
    (∀ (frames : List (Frame × FrameIO)) (ch : Chan),
      (recvLoop s frames).2.count (Effect.chanClose ch) ≤ 1) ∧
    (∀ (f : Frame) (io : FrameIO) (tunnel : tunnelInfo) (ch : Chan),
      f.Typ = .TUNNEL_READY → lookup s.activeTunnels f.ConnectionId = some tunnel →
      tunnel.ready = some ch →
      handleAgentFrame s f io =
        ({ s with activeTunnels :=
            assign s.activeTunnels f.ConnectionId { tunnel with ready := none } },
          [Effect.chanClose ch])) ∧
    (∀ (f f' : Frame) (io io' : FrameIO) (between : List (Frame × FrameIO)),
      f.Typ = .TUNNEL_READY → f'.Typ = .TUNNEL_READY → f'.ConnectionId = f.ConnectionId →
      handleAgentFrame (recvLoop (handleAgentFrame s f io).1 between).1 f' io' =
        ((recvLoop (handleAgentFrame s f io).1 between).1, [])) ∧
    (∀ (f : Frame) (io : FrameIO),
      f.Typ = .TUNNEL_READY → lookup s.activeTunnels f.ConnectionId = none →
      handleAgentFrame s f io = (s, [])) := by
  refine ⟨?_, ?_, ?_, ?_⟩
  · intro frames ch
    rw [count_chanClose]
    exact List.nodup_iff_count_le_one.mp (recvLoop_ready frames s hfresh).1 ch
  · intro f io tunnel ch hf hreg hch
    simp [handleAgentFrame, hf, hreg, hch]
  · intro f f' io io' between hf hf' hid
    apply handleAgentFrame_ready_of_notWaiting _ _ _ hf'
    rw [hid]
    exact notWaiting_recvLoop between _ _ (notWaiting_after_ready s f io hf)
  · intro f io _ habsent
    exact handleAgentFrame_of_absent s f io habsent

/-- C7 at a concrete input: two waiting tunnels with channels 6 and 9; TUNNEL_READY for
"t1" arrives three times around a DATA frame and a TUNNEL_READY for the unknown "t7", and
channel 6 is closed exactly once. -/
theorem ready_fires_at_most_once_witness :
    (readyChans
      { agentStream := some { id := 1, incomingMD := none },
        activeTunnels :=
          [("t1", { firebirdConn := some 4, cancel := some 5, ready := some 6 }),
           ("t2", { firebirdConn := some 7, cancel := some 8, ready := some 9 })],
        authToken := "secret" }).Nodup ∧
    (recvLoop
      { agentStream := some { id := 1, incomingMD := none },
        activeTunnels :=
          [("t1", { firebirdConn := some 4, cancel := some 5, ready := some 6 }),
           ("t2", { firebirdConn := some 7, cancel := some 8, ready := some 9 })],
        authToken := "secret" }
      [({ Typ := .TUNNEL_READY, ConnectionId := "t1" }, { writeErr := none, sendErr := none }),
       ({ Typ := .TUNNEL_READY, ConnectionId := "t1" }, { writeErr := none, sendErr := none }),
       ({ Typ := .DATA, ConnectionId := "t1", Payload := [1, 2] },
         { writeErr := none, sendErr := none }),
       ({ Typ := .TUNNEL_READY, ConnectionId := "t7" }, { writeErr := none, sendErr := none }),
       ({ Typ := .TUNNEL_READY, ConnectionId := "t1" },
         { writeErr := none, sendErr := none })]).2.count (Effect.chanClose 6) ≤ 1 ∧
    (recvLoop
      { agentStream := some { id := 1, incomingMD := none },
        activeTunnels :=
          [("t1", { firebirdConn := some 4, cancel := some 5, ready := some 6 }),
           ("t2", { firebirdConn := some 7, cancel := some 8, ready := some 9 })],
        authToken := "secret" }
      [({ Typ := .TUNNEL_READY, ConnectionId := "t1" }, { writeErr := none, sendErr := none }),
       ({ Typ := .TUNNEL_READY, ConnectionId := "t1" }, { writeErr := none, sendErr := none }),
       ({ Typ := .DATA, ConnectionId := "t1", Payload := [1, 2] },
         { writeErr := none, sendErr := none }),
       ({ Typ := .TUNNEL_READY, ConnectionId := "t7" }, { writeErr := none, sendErr := none }),
       ({ Typ := .TUNNEL_READY, ConnectionId := "t1" },
         { writeErr := none, sendErr := none })]).2 =
      [Effect.chanClose 6, Effect.connWrite 4 [1, 2]] :=
  ⟨by decide, (ready_fires_at_most_once _ (by decide)).1 _ 6, by decide⟩

/-- C8. Reconnect backoff schedule: for every finite sequence of outcomes of
`connectAndServe` with the root context never cancelled, `runControlLoop` sleeps once per
attempt, and the sleep after attempt `i` is the specified one: `min(2^j, 30)` seconds
after a failure preceded by `j` consecutive failures (1, 2, 4, 8, 16, 30, 30, ...), one
second after a clean close, after which the count of failures starts again at zero. -/
theorem reconnect_backoff_schedule (attempts : List Attempt)
    (hlive : ∀ a ∈ attempts, a.cancelledBefore = false ∧ a.cancelledAfter = false) :
    (runControlLoop attempts).length = attempts.length ∧
    ∀ i, i < attempts.length →
      (runControlLoop attempts)[i]? = some (specifiedSleep (attempts.map Attempt.failed) i) := by
  refine ⟨runControlLoopFrom_length attempts _ hlive, ?_⟩
  intro i hi
  have := runControlLoopFrom_spec attempts [] hlive i hi
  simpa [runControlLoop, delayAfter_zero] using this

/-- C8 at a concrete input: seven failures, a clean close, then a failure. -/
theorem reconnect_backoff_schedule_witness :
    (runControlLoop
      ((List.replicate 7
          ({ cancelledBefore := false, err := some "dial", cancelledAfter := false } : Attempt)) ++
        [{ cancelledBefore := false, err := none, cancelledAfter := false },
         { cancelledBefore := false, err := some "dial", cancelledAfter := false }])).length = 9 ∧
    runControlLoop
      ((List.replicate 7
          ({ cancelledBefore := false, err := some "dial", cancelledAfter := false } : Attempt)) ++
        [{ cancelledBefore := false, err := none, cancelledAfter := false },
         { cancelledBefore := false, err := some "dial", cancelledAfter := false }]) =
      [1 * Second, 2 * Second, 4 * Second, 8 * Second, 16 * Second, 30 * Second, 30 * Second,
       1 * Second, 1 * Second] :=
  ⟨(reconnect_backoff_schedule _ (by decide)).1, by decide⟩

/-- C9. No agent, no tunnel: with no session installed `handleFirebirdConnection` returns
having closed the accepted socket and nothing else (no frame is sent), and the struct,
registry included, is unchanged. -/
theorem no_agent_no_tunnel (s : tunnelServer) (fbConn : Conn) (connID : String)
    (cancel : CancelFunc) (ready : Chan) (env : HandlerEnv) (hnone : s.agentStream = none) :
    handleFirebirdConnection s fbConn connID cancel ready env =
      some (s, [Effect.connClose fbConn], true) := by
  simp [handleFirebirdConnection, hnone]

/-- C9 at a concrete input: a fresh server, client socket 4. -/
theorem no_agent_no_tunnel_witness :
    handleFirebirdConnection (newTunnelServer "secret") 4 "t1" 5 6
      { startSendErr := none,
        wait := { readyClosed := true, tunnelCtxDone := false, agentCtxDone := false,
                  prefer := WaitCase.ready },
        pump := [], exitSendErr := none } =
    some (newTunnelServer "secret", [Effect.connClose 4], true) :=
  no_agent_no_tunnel (newTunnelServer "secret") 4 "t1" 5 6 _ rfl

/-- C10, the claim as stated fails: for the registered tunnel "t1" an ERROR frame from the
agent makes the server send a CLOSE_TUNNEL frame for "t1" back to the agent. -/
theorem error_frame_echoes_close :
    lookup [("t1", ({ firebirdConn := some 4, cancel := some 5, ready := none } : tunnelInfo))]
      "t1" = some { firebirdConn := some 4, cancel := some 5, ready := none } ∧
    (handleAgentFrame
      { agentStream := some { id := 1, incomingMD := none },
        activeTunnels := [("t1", { firebirdConn := some 4, cancel := some 5, ready := none })],
        authToken := "secret" }
      { Typ := .ERROR, ConnectionId := "t1" } { writeErr := none, sendErr := none }).2 =
    [Effect.cancel 5, Effect.connClose 4,
     Effect.streamSend 1
       { Typ := .CLOSE_TUNNEL, ConnectionId := "t1",
         Metadata := some [("reason", "Error reported by agent")] }] := by
  decide

/-- C10, amended. For a registered id, a CLOSE_TUNNEL frame from the agent removes the
tunnel, cancels its context and closes its client socket and sends nothing to the agent;
an ERROR frame tears the tunnel down the same way and then notifies the agent: with a
session installed, the frames sent are exactly one CLOSE_TUNNEL for that id whose
metadata reason is "Error reported by agent". -/
theorem agent_close_not_echoed (s : tunnelServer) (f : Frame) (io : FrameIO)
    (tunnel : tunnelInfo) (hreg : lookup s.activeTunnels f.ConnectionId = some tunnel) :
    (f.Typ = .CLOSE_TUNNEL →
      handleAgentFrame s f io =
        ({ s with activeTunnels := delete s.activeTunnels f.ConnectionId },
          cancelEffect tunnel.cancel ++ connCloseEffect tunnel.firebirdConn)) ∧
    (f.Typ = .ERROR →
      handleAgentFrame s f io =
        ({ s with activeTunnels := delete s.activeTunnels f.ConnectionId },
          cancelEffect tunnel.cancel ++ connCloseEffect tunnel.firebirdConn ++
            (sendFrameToAgent { s with activeTunnels := delete s.activeTunnels f.ConnectionId }
              { Typ := .CLOSE_TUNNEL, ConnectionId := f.ConnectionId,
                Metadata := some [("reason", "Error reported by agent")] } io.sendErr).1) ∧
      ∀ stream, s.agentStream = some stream →
        sentOn stream.id (handleAgentFrame s f io).2 =
          [{ Typ := .CLOSE_TUNNEL, ConnectionId := f.ConnectionId,
             Metadata := some [("reason", "Error reported by agent")] }]) := by
  have hpre : ∀ (st : Nat) (rest : List Effect),
      sentOn st (cancelEffect tunnel.cancel ++ connCloseEffect tunnel.firebirdConn ++ rest) =
        sentOn st rest := by
    intro st rest
    cases tunnel.cancel <;> cases tunnel.firebirdConn <;>
      simp [cancelEffect, connCloseEffect, sentOn]
  constructor
  · intro ht
    simp [handleAgentFrame, hreg, ht, closeTunnel]
  · intro ht
    have heff : handleAgentFrame s f io =
        ({ s with activeTunnels := delete s.activeTunnels f.ConnectionId },
          cancelEffect tunnel.cancel ++ connCloseEffect tunnel.firebirdConn ++
            (sendFrameToAgent { s with activeTunnels := delete s.activeTunnels f.ConnectionId }
              { Typ := .CLOSE_TUNNEL, ConnectionId := f.ConnectionId,
                Metadata := some [("reason", "Error reported by agent")] } io.sendErr).1) := by
      simp [handleAgentFrame, hreg, ht, closeTunnel]
    refine ⟨heff, ?_⟩
    intro stream hstream
    rw [heff, hpre]
    unfold sendFrameToAgent
    simp only [hstream]
    cases io.sendErr with
    | none => simp [sentOn]
    | some e => by_cases hid : f.ConnectionId = "" <;> simp [sentOn, hid]

/-- C10 amended, at a concrete input: the registered tunnel "t1" and a CLOSE_TUNNEL frame
for it. -/
theorem agent_close_not_echoed_witness :
    handleAgentFrame
      { agentStream := some { id := 1, incomingMD := none },
        activeTunnels := [("t1", { firebirdConn := some 4, cancel := some 5, ready := none })],
        authToken := "secret" }
      { Typ := .CLOSE_TUNNEL, ConnectionId := "t1" } { writeErr := none, sendErr := none } =
    ({ agentStream := some { id := 1, incomingMD := none }, activeTunnels := [],
       authToken := "secret" },
     [Effect.cancel 5, Effect.connClose 4]) :=
  (agent_close_not_echoed
    { agentStream := some { id := 1, incomingMD := none },
      activeTunnels := [("t1", { firebirdConn := some 4, cancel := some 5, ready := none })],
      authToken := "secret" }
    { Typ := .CLOSE_TUNNEL, ConnectionId := "t1" } { writeErr := none, sendErr := none }
    { firebirdConn := some 4, cancel := some 5, ready := none } (by decide)).1 rfl

/-- C11, the code at a failing input: an agent whose control stream 3 is still stored
holds the tunnel "t1"; `cleanupAgentState` cancels it, closes its backend socket, empties
the registry and clears the stream handle, and it calls `Send` on the control stream with
a CLOSE_TUNNEL frame for "t1", although the comment at the call says not to notify the
server. -/
theorem cleanup_agent_state_sends_close :
    cleanupAgentState
      { authToken := "secret", conn := some 2, controlStream := some 3,
        activeConns := [("t1", { fbConn := some 40, cancel := some 41 })] }
      (fun _ => none) (fun _ => 0) =
    ({ authToken := "secret", conn := none, controlStream := none, activeConns := [] },
     [Effect.cancel 41, Effect.connClose 40,
      Effect.streamSend 3
        (NewCloseFrame "t1" "Agent disconnecting or connection lost" 0)]) := by
  decide

/-- C12, the code at a failing input: tunnel "t1" is registered and ready, the pump reads
one byte and the `Send` of its DATA frame fails. The pump then closes the tunnel with the
reason "Failed to send data to agent", which is not one of the two reasons `closeTunnel`
keeps silent on, so a CLOSE_TUNNEL frame for "t1" is sent to the agent; the deferred
close of the handler finds the id gone and sends nothing. -/
theorem failed_data_send_renotifies :
    handleFirebirdConnection
      { agentStream := some { id := 1, incomingMD := none }, activeTunnels := [],
        authToken := "secret" }
      4 "t1" 5 6
      { startSendErr := none,
        wait := { readyClosed := true, tunnelCtxDone := false, agentCtxDone := false,
                  prefer := WaitCase.ready },
        pump := [{ ctxDone := false, read := { data := [7], err := none },
                   sendErr := some "transport is closing", closeSendErr := none }],
        exitSendErr := none } =
    some ({ agentStream := some { id := 1, incomingMD := none }, activeTunnels := [],
            authToken := "secret" },
      [Effect.streamSend 1 { Typ := .START_DATA_TUNNEL, ConnectionId := "t1" },
       Effect.streamSend 1 { Typ := .DATA, ConnectionId := "t1", Payload := [7] },
       Effect.spawn (Goroutine.closeTunnel "t1" "Failed to send to agent"),
       Effect.cancel 5, Effect.connClose 4,
       Effect.streamSend 1
         { Typ := .CLOSE_TUNNEL, ConnectionId := "t1",
           Metadata := some [("reason", "Failed to send data to agent")] }],
      true) := by
  decide

/-- C13, the claim as stated fails: in the agent-disconnect cleanup of `ConnectControl`
the tunnel "t1" is cancelled and its client socket closed before its id is deleted, and
in a run of `startLocalFirebirdTunnel` that ends on a backend EOF the exit handlers
close the backend socket and cancel the context before they delete the id. -/
theorem teardown_not_remove_first :
    (agentDisconnectSteps
        [("t1", { firebirdConn := some 4, cancel := some 5, ready := some 6 })] =
      some [Step.effect (.cancel 5), Step.effect (.connClose 4), Step.registryDelete "t1"] ∧
     occursBefore (Step.registryDelete "t1") (Step.effect (.cancel 5))
       [Step.effect (.cancel 5), Step.effect (.connClose 4), Step.registryDelete "t1"] = false ∧
     occursBefore (Step.registryDelete "t1") (Step.effect (.connClose 4))
       [Step.effect (.cancel 5), Step.effect (.connClose 4), Step.registryDelete "t1"] = false) ∧
    ((startLocalFirebirdTunnel
        { authToken := "secret", conn := some 2, controlStream := some 3, activeConns := [] }
        "t1" 41
        { dial := .connected 40, errorSendErr := none, errorNow := 0, closeSendErr := none,
          closeNow := 0, rootCancelled := false, readySendErr := none, readyNow := 0,
          pump := [{ ctxDone := false, read := { data := [], err := some "EOF" },
                     readErrIsClose := true, sendErr := none, now := 0 }] }).2.1 =
      [Step.registryStore "t1",
       Step.effect (.streamSend 3 (NewTunnelReadyFrame "t1" 0)),
       Step.effect (.streamSend 3 (NewCloseFrame "t1" "Read error/EOF from local Firebird" 0)),
       Step.effect (.cancel 41), Step.effect (.connClose 40), Step.effect (.cancel 41),
       Step.registryDelete "t1"] ∧
     occursBefore (Step.registryDelete "t1") (Step.effect (.connClose 40))
       [Step.registryStore "t1",
        Step.effect (.streamSend 3 (NewTunnelReadyFrame "t1" 0)),
        Step.effect (.streamSend 3 (NewCloseFrame "t1" "Read error/EOF from local Firebird" 0)),
        Step.effect (.cancel 41), Step.effect (.connClose 40), Step.effect (.cancel 41),
        Step.registryDelete "t1"] = false) := by
  decide

/-- C13, amended. The server's `closeTunnel` and the agent's `closeLocalTunnel` are
remove-first: for a registered id the delete is their first step, before the cancel, the
socket close and the notification. The agent-disconnect cleanup of `ConnectControl`
cancels each registered tunnel and closes its socket before it deletes the id, inside
one critical section. A run of `startLocalFirebirdTunnel` that has dialled the backend
ends, in its exit handlers, with the socket close, then the cancel, then the delete. -/
theorem teardown_order :
    (∀ (s : tunnelServer) (connID reason : String) (sendErr : GoError) (tunnel : tunnelInfo),
      lookup s.activeTunnels connID = some tunnel →
      closeTunnelSteps s connID reason sendErr =
        Step.registryDelete connID ::
          (closeTunnel s connID reason sendErr).2.map Step.effect) ∧
    (∀ (a : tunnelAgent) (connID reason : String) (sendErr : GoError) (now : Int)
        (tunnel : localTunnelInfo),
      lookup a.activeConns connID = some tunnel →
      closeLocalTunnelSteps a connID reason sendErr now =
        Step.registryDelete connID ::
          (closeLocalTunnel a connID reason sendErr now).2.map Step.effect) ∧
    (∀ (s s' : tunnelServer) (effects : List Effect) (connID : String) (tunnel : tunnelInfo),
      agentDisconnectCleanup s = some (s', effects) →
      lookup s.activeTunnels connID = some tunnel →
      ∃ steps, agentDisconnectSteps s.activeTunnels = some steps ∧
        stepEffects steps = effects ∧
        replayDeletes s.activeTunnels steps = s'.activeTunnels ∧
        (∀ c, tunnel.cancel = some c →
          occursBefore (Step.effect (.cancel c)) (Step.registryDelete connID) steps = true) ∧
        (∀ k, tunnel.firebirdConn = some k →
          occursBefore (Step.effect (.connClose k)) (Step.registryDelete connID) steps =
            true)) ∧
    (∀ (a a' : tunnelAgent) (connID : String) (cancel : CancelFunc) (env : LocalTunnelEnv)
        (fbConn : Conn) (steps : List Step),
      env.dial = .connected fbConn →
      startLocalFirebirdTunnel a connID cancel env = (a', steps, true) →
      ∃ pre, steps = pre ++ [Step.effect (.connClose fbConn), Step.effect (.cancel cancel),
          Step.registryDelete connID] ∧
        Step.registryDelete connID ∉ pre) := by
  refine ⟨?_, ?_, ?_, ?_⟩
  · intro s connID reason sendErr tunnel hreg
    simp [closeTunnelSteps, closeTunnel, hreg]
  · intro a connID reason sendErr now tunnel hreg
    simp [closeLocalTunnelSteps, closeLocalTunnel, hreg]
  · intro s s' effects connID tunnel hclean hreg
    unfold agentDisconnectCleanup at hclean
    rw [agentDisconnectSteps_refines] at hclean
    cases hsteps : agentDisconnectSteps s.activeTunnels with
    | none => simp [hsteps] at hclean
    | some steps =>
      simp only [hsteps, Option.map_some', Option.some.injEq, Prod.mk.injEq] at hclean
      obtain ⟨hs', heff⟩ := hclean
      refine ⟨steps, rfl, heff, ?_, agentDisconnectSteps_order _ _ _ _ hsteps hreg⟩
      rw [← hs']
  · intro a a' connID cancel env fbConn steps hdial hrun
    exact startLocalFirebirdTunnel_exit a a' connID cancel env fbConn steps hdial hrun

/-- C13 amended, at a concrete input: `closeTunnel` of the registered "t1" deletes first,
and the cleanup over the same registry cancels before it deletes. -/
theorem teardown_order_witness :
    closeTunnelSteps
      { agentStream := some { id := 1, incomingMD := none },
        activeTunnels := [("t1", { firebirdConn := some 4, cancel := some 5, ready := some 6 })],
        authToken := "secret" } "t1" "Handler exit" none =
      [Step.registryDelete "t1", Step.effect (.cancel 5), Step.effect (.connClose 4),
       Step.effect (.streamSend 1
         { Typ := .CLOSE_TUNNEL, ConnectionId := "t1",
           Metadata := some [("reason", "Handler exit")] })] ∧
    ∃ steps,
      agentDisconnectSteps
        [("t1", ({ firebirdConn := some 4, cancel := some 5, ready := some 6 } : tunnelInfo))] =
        some steps ∧
      occursBefore (Step.effect (.cancel 5)) (Step.registryDelete "t1") steps = true :=
  ⟨teardown_order.1
      { agentStream := some { id := 1, incomingMD := none },
        activeTunnels := [("t1", { firebirdConn := some 4, cancel := some 5, ready := some 6 })],
        authToken := "secret" } "t1" "Handler exit" none
      { firebirdConn := some 4, cancel := some 5, ready := some 6 } (by decide),
   (teardown_order.2.2.1
      { agentStream := some { id := 1, incomingMD := none },
        activeTunnels := [("t1", { firebirdConn := some 4, cancel := some 5, ready := some 6 })],
        authToken := "secret" }
      { agentStream := none, activeTunnels := [], authToken := "secret" }
      [Effect.cancel 5, Effect.connClose 4] "t1"
      { firebirdConn := some 4, cancel := some 5, ready := some 6 }
      (by decide) (by decide)).imp (fun _ h => ⟨h.1, h.2.2.2.1 5 rfl⟩)⟩

/-- C14, the claim as stated fails: on a ready timeout for tunnel "t1" the CLOSE_TUNNEL
frame sent to the agent carries the reason "Handler exit" (in its metadata; the typed
field is unset), not "Timeout waiting for ready". -/
theorem ready_timeout_reason_is_handler_exit :
    handleFirebirdConnection
      { agentStream := some { id := 1, incomingMD := none }, activeTunnels := [],
        authToken := "secret" }
      4 "t1" 5 6
      { startSendErr := none,
        wait := { readyClosed := false, tunnelCtxDone := false, agentCtxDone := false,
                  prefer := WaitCase.timeout },
        pump := [], exitSendErr := none } =
    some ({ agentStream := some { id := 1, incomingMD := none }, activeTunnels := [],
            authToken := "secret" },
      [Effect.streamSend 1 { Typ := .START_DATA_TUNNEL, ConnectionId := "t1" },
       Effect.cancel 5, Effect.connClose 4,
       Effect.streamSend 1
         { Typ := .CLOSE_TUNNEL, ConnectionId := "t1",
           Metadata := some [("reason", "Handler exit")] }],
      true) ∧
    Frame.GetOptimizedCloseReason
      { Typ := .CLOSE_TUNNEL, ConnectionId := "t1",
        Metadata := some [("reason", "Handler exit")] } ≠ "Timeout waiting for ready" := by
  decide

/-- C14, amended. When the handler has sent START_DATA_TUNNEL and the 15-second wait
expires (no ready signal, no cancellation) with the tunnel registered and the session
present, the handler returns through its deferred close: the tunnel is removed, its
context cancelled, the client socket closed, and the frames sent to the agent are the
START_DATA_TUNNEL frame followed by one CLOSE_TUNNEL frame for that id whose reason, read
by `GetOptimizedCloseReason`, is "Handler exit". -/
theorem ready_timeout_notification (s : tunnelServer) (stream : ServerStream) (fbConn : Conn)
    (connID : String) (cancel : CancelFunc) (ready : Chan) (env : HandlerEnv)
    (hs : s.agentStream = some stream) (hstart : env.startSendErr = none)
    (hquiet : env.wait.readyClosed = false ∧ env.wait.tunnelCtxDone = false ∧
      env.wait.agentCtxDone = false) :
    ∃ effects,
      handleFirebirdConnection s fbConn connID cancel ready env =
        some ({ s with activeTunnels := delete s.activeTunnels connID }, effects, true) ∧
      lookup (delete s.activeTunnels connID) connID = none ∧
      Effect.cancel cancel ∈ effects ∧ Effect.connClose fbConn ∈ effects ∧
      sentOn stream.id effects =
        [{ Typ := .START_DATA_TUNNEL, ConnectionId := connID },
         { Typ := .CLOSE_TUNNEL, ConnectionId := connID,
           Metadata := some [("reason", "Handler exit")] }] ∧
      Frame.GetOptimizedCloseReason
        { Typ := .CLOSE_TUNNEL, ConnectionId := connID,
          Metadata := some [("reason", "Handler exit")] } = "Handler exit" := by
  obtain ⟨h1, h2, h3⟩ := hquiet
  have hwait : awaitReady (some ready) (some stream) env.wait = some WaitCase.timeout := by
    simp [awaitReady, h1, h2, h3]
  have hrun : handleFirebirdConnection s fbConn connID cancel ready env =
      some ({ s with activeTunnels := delete s.activeTunnels connID },
        [Effect.streamSend stream.id { Typ := .START_DATA_TUNNEL, ConnectionId := connID },
         Effect.cancel cancel, Effect.connClose fbConn] ++
        (sendFrameToAgent { s with activeTunnels := delete s.activeTunnels connID }
          { Typ := .CLOSE_TUNNEL, ConnectionId := connID,
            Metadata := some [("reason", "Handler exit")] } env.exitSendErr).1, true) := by
    simp [handleFirebirdConnection, hs, sendFrameToAgent, hstart, lookup_store_self, hwait,
      closeTunnel, delete_store, cancelEffect, connCloseEffect]
  refine ⟨_, hrun, lookup_delete_self _ _, by simp, by simp, ?_, rfl⟩
  unfold sendFrameToAgent
  simp only [hs]
  cases env.exitSendErr with
  | none => simp [sentOn]
  | some e => by_cases hid : connID = "" <;> simp [sentOn, hid]

/-- C14 amended, at a concrete input: the run of the counterexample. -/
theorem ready_timeout_notification_witness :
    ∃ effects,
      handleFirebirdConnection
        { agentStream := some { id := 1, incomingMD := none }, activeTunnels := [],
          authToken := "secret" }
        4 "t1" 5 6
        { startSendErr := none,
          wait := { readyClosed := false, tunnelCtxDone := false, agentCtxDone := false,
                    prefer := WaitCase.timeout },
          pump := [], exitSendErr := none } =
        some ({ agentStream := some { id := 1, incomingMD := none }, activeTunnels := [],
                authToken := "secret" }, effects, true) ∧
      sentOn 1 effects =
        [{ Typ := .START_DATA_TUNNEL, ConnectionId := "t1" },
         { Typ := .CLOSE_TUNNEL, ConnectionId := "t1",
           Metadata := some [("reason", "Handler exit")] }] :=
  have h := ready_timeout_notification
    { agentStream := some { id := 1, incomingMD := none }, activeTunnels := [],
      authToken := "secret" }
    { id := 1, incomingMD := none } 4 "t1" 5 6
    { startSendErr := none,
      wait := { readyClosed := false, tunnelCtxDone := false, agentCtxDone := false,
                prefer := WaitCase.timeout },
      pump := [], exitSendErr := none } rfl rfl ⟨rfl, rfl, rfl⟩
  h.imp (fun _ hh => ⟨hh.1, hh.2.2.2.2.1⟩)

/-- C15. Reason accessors follow typed-then-metadata-then-empty: `GetOptimizedCloseReason`
returns the typed `CloseReason` whenever it is set, whatever its value and whatever the
metadata holds; with the typed field unset it returns `Metadata["reason"]` when the map
has that key, and the empty string when the map is nil or lacks the key.
`GetOptimizedErrorMessage` does the same with `ErrorMessage` and `Metadata["error"]`. -/
theorem reason_accessors (f : Frame) :
    (∀ r, f.CloseReason = some r → f.GetOptimizedCloseReason = r) ∧
    (f.CloseReason = none → ∀ m v, f.Metadata = some m → lookup m "reason" = some v →
      f.GetOptimizedCloseReason = v) ∧
    (f.CloseReason = none →
      (f.Metadata = none ∨ ∃ m, f.Metadata = some m ∧ lookup m "reason" = none) →
      f.GetOptimizedCloseReason = "") ∧
    (∀ e, f.ErrorMessage = some e → f.GetOptimizedErrorMessage = e) ∧
    (f.ErrorMessage = none → ∀ m v, f.Metadata = some m → lookup m "error" = some v →
      f.GetOptimizedErrorMessage = v) ∧
    (f.ErrorMessage = none →
      (f.Metadata = none ∨ ∃ m, f.Metadata = some m ∧ lookup m "error" = none) →
      f.GetOptimizedErrorMessage = "") := by
  refine ⟨?_, ?_, ?_, ?_, ?_, ?_⟩
  · intro r h
    simp [Frame.GetOptimizedCloseReason, h]
  · intro h m v hm hv
    simp [Frame.GetOptimizedCloseReason, h, hm, hv]
  · rintro h (hm | ⟨m, hm, hv⟩)
    · simp [Frame.GetOptimizedCloseReason, h, hm]
    · simp [Frame.GetOptimizedCloseReason, h, hm, hv]
  · intro e h
    simp [Frame.GetOptimizedErrorMessage, h]
  · intro h m v hm hv
    simp [Frame.GetOptimizedErrorMessage, h, hm, hv]
  · rintro h (hm | ⟨m, hm, hv⟩)
    · simp [Frame.GetOptimizedErrorMessage, h, hm]
    · simp [Frame.GetOptimizedErrorMessage, h, hm, hv]

/-- C15 at a concrete input: a typed empty close reason wins over `Metadata["reason"]`,
and with the typed field unset the metadata value is returned. -/
theorem reason_accessors_witness :
    Frame.GetOptimizedCloseReason
      { Typ := .CLOSE_TUNNEL, ConnectionId := "t1", CloseReason := some "",
        Metadata := some [("reason", "from metadata")] } = "" ∧
    Frame.GetOptimizedCloseReason
      { Typ := .CLOSE_TUNNEL, ConnectionId := "t1",
        Metadata := some [("reason", "from metadata")] } = "from metadata" ∧
    Frame.GetOptimizedErrorMessage
      { Typ := .ERROR, ConnectionId := "t1", Metadata := some [("reason", "r")] } = "" :=
  ⟨(reason_accessors
      { Typ := .CLOSE_TUNNEL, ConnectionId := "t1", CloseReason := some "",
        Metadata := some [("reason", "from metadata")] }).1 "" rfl,
   (reason_accessors
      { Typ := .CLOSE_TUNNEL, ConnectionId := "t1",
        Metadata := some [("reason", "from metadata")] }).2.1 rfl
      [("reason", "from metadata")] "from metadata" rfl (by decide),
   (reason_accessors
      { Typ := .ERROR, ConnectionId := "t1", Metadata := some [("reason", "r")] }).2.2.2.2.2 rfl
      (Or.inr ⟨[("reason", "r")], rfl, by decide⟩)⟩

/-- C16. Close and error constructors write both representations and round-trip:
`NewCloseFrame id reason` is a CLOSE_TUNNEL frame for `id` whose typed `CloseReason` and
whose `Metadata["reason"]` are both `reason`, and `GetOptimizedCloseReason` gives `reason`
back; `NewErrorFrame id msg` is an ERROR frame for `id` whose typed `ErrorMessage` and
whose `Metadata["error"]` are both `msg`, and `GetOptimizedErrorMessage` gives `msg` back. -/
theorem constructors_round_trip (id text : String) (now : Int) :
    ((NewCloseFrame id text now).Typ = .CLOSE_TUNNEL ∧
      (NewCloseFrame id text now).ConnectionId = id ∧
      (NewCloseFrame id text now).CloseReason = some text ∧
      (∃ m, (NewCloseFrame id text now).Metadata = some m ∧ lookup m "reason" = some text) ∧
      (NewCloseFrame id text now).metadataAt "reason" = text ∧
      (NewCloseFrame id text now).GetOptimizedCloseReason = text) ∧
    ((NewErrorFrame id text now).Typ = .ERROR ∧
      (NewErrorFrame id text now).ConnectionId = id ∧
      (NewErrorFrame id text now).ErrorMessage = some text ∧
      (∃ m, (NewErrorFrame id text now).Metadata = some m ∧ lookup m "error" = some text) ∧
      (NewErrorFrame id text now).metadataAt "error" = text ∧
      (NewErrorFrame id text now).GetOptimizedErrorMessage = text) := by
  refine ⟨⟨rfl, rfl, rfl, ⟨_, rfl, lookup_store_self _ _ _⟩, ?_, rfl⟩,
    ⟨rfl, rfl, rfl, ⟨_, rfl, lookup_store_self _ _ _⟩, ?_, rfl⟩⟩
  · simp [NewCloseFrame, Frame.SetTimestamp, Frame.SetCloseReason, Frame.metadataAt,
      lookup_store_self]
  · simp [NewErrorFrame, Frame.SetTimestamp, Frame.SetErrorMessage, Frame.metadataAt,
      lookup_store_self]

/-- C17. Tunnels exist only under a session: in every server state reachable from
`newTunnelServer` through session install, tunnel registration, `closeTunnel`, frame
handling and the agent-disconnect cleanup, a non-empty registry implies an installed
session, and a nil `agentStream` implies an empty registry. -/
theorem tunnels_only_under_session (s : tunnelServer) (hreach : Reachable s) :
    (s.activeTunnels ≠ [] → s.agentStream ≠ none) ∧
    (s.agentStream = none → s.activeTunnels = []) := by
  have key : s.agentStream = none → s.activeTunnels = [] := by
    induction hreach with
    | init token => intro _; rfl
    | install stream _ hinst _ =>
      rename_i s₀ s₁
      intro hnone
      unfold installSession at hinst
      split at hinst
      · cases hinst
      · simp only [Option.some.injEq] at hinst
        rw [← hinst] at hnone
        cases hnone
    | register fbConn connID cancel ready _ hreg _ =>
      rename_i s₀ s₁
      intro hnone
      unfold registerTunnel at hreg
      split at hreg
      · cases hreg
      · rename_i stream hstream
        simp only [Option.some.injEq] at hreg
        rw [← hreg] at hnone
        rw [hstream] at hnone
        cases hnone
    | close connID reason sendErr _ ih =>
      rename_i s₀
      intro hnone
      rw [closeTunnel_agentStream] at hnone
      rw [closeTunnel_of_empty _ _ _ _ (ih hnone)]
      exact ih hnone
    | frame f io _ ih =>
      rename_i s₀
      intro hnone
      rw [handleAgentFrame_agentStream] at hnone
      rw [handleAgentFrame_of_empty _ _ _ (ih hnone)]
      exact ih hnone
    | disconnect _ hclean _ =>
      intro _
      exact (agentDisconnectCleanup_result _ _ _ hclean).2
  exact ⟨fun hne hnone => hne (key hnone), key⟩

/-- C17 at a concrete input: the state after agent 1 connected and the handler of "t1"
registered its tunnel. -/
theorem tunnels_only_under_session_witness :
    (([("t1", ({ firebirdConn := some 4, cancel := some 5, ready := some 6 } : tunnelInfo))] ≠
        []) →
      (some ({ id := 1, incomingMD := none } : ServerStream)) ≠ none) ∧
    ((some ({ id := 1, incomingMD := none } : ServerStream)) = none →
      [("t1", ({ firebirdConn := some 4, cancel := some 5, ready := some 6 } : tunnelInfo))] =
        []) :=
  tunnels_only_under_session
    { agentStream := some { id := 1, incomingMD := none },
      activeTunnels := [("t1", { firebirdConn := some 4, cancel := some 5, ready := some 6 })],
      authToken := "secret" }
    (Reachable.register 4 "t1" 5 6
      (Reachable.install { id := 1, incomingMD := none } (Reachable.init "secret") rfl) rfl)

/-- C18, the code at a failing input: agent 1 is connected, the handler of "t1" registers
its tunnel and sends START_DATA_TUNNEL, then the agent disconnects and the deferred
cleanup of `ConnectControl` runs before the handler's `select` evaluates its operands.
The state at the wait is reachable and has a nil `agentStream`, so
`s.agentStream.Context()` is a call on a nil interface: the handler panics, whatever
happens around the wait. -/
theorem ready_wait_reads_nil_session :
    (∀ obs : WaitObs,
      readyWaitWith
        { agentStream := some { id := 1, incomingMD := none }, activeTunnels := [],
          authToken := "secret" }
        4 "t1" 5 6 none [OtherStep.agentDisconnect] obs =
      some ({ agentStream := none, activeTunnels := [], authToken := "secret" },
        [Effect.streamSend 1 { Typ := .START_DATA_TUNNEL, ConnectionId := "t1" },
         Effect.cancel 5, Effect.connClose 4],
        none)) ∧
    Reachable { agentStream := none, activeTunnels := [], authToken := "secret" } := by
  constructor
  · intro obs
    rfl
  · exact @Reachable.disconnect _ _ [Effect.cancel 5, Effect.connClose 4]
      (Reachable.register 4 "t1" 5 6
        (Reachable.install { id := 1, incomingMD := none } (Reachable.init "secret") rfl) rfl)
      (by decide)

/-- C19, the code at a failing input: the handler of "t1" registers its tunnel and sends
START_DATA_TUNNEL, and the receive loop handles the agent's TUNNEL_READY for "t1" before
the handler's `select` evaluates `tunnel.ready`. The handling closes channel 6 and sets
the field to nil, so the `select` waits on a nil channel: although the channel is closed
and nothing is cancelled, the case taken is the 15-second timeout, not the ready case. -/
theorem early_ready_is_lost :
    readyWaitWith
      { agentStream := some { id := 1, incomingMD := none }, activeTunnels := [],
        authToken := "secret" }
      4 "t1" 5 6 none
      [OtherStep.agentFrame { Typ := .TUNNEL_READY, ConnectionId := "t1" }
        { writeErr := none, sendErr := none }]
      { readyClosed := true, tunnelCtxDone := false, agentCtxDone := false,
        prefer := WaitCase.ready } =
    some ({ agentStream := some { id := 1, incomingMD := none },
            activeTunnels := [("t1", { firebirdConn := some 4, cancel := some 5, ready := none })],
            authToken := "secret" },
      [Effect.streamSend 1 { Typ := .START_DATA_TUNNEL, ConnectionId := "t1" },
       Effect.chanClose 6],
      some WaitCase.timeout) := by
  decide

end GrpcTunnel
